import Mathlib

/-!
# Verification of the analyse-skills report-extraction scripts

Shallow embedding of the numeric parsing, unit detection, derived-ratio,
sorting, sentiment-analysis, download-skip and page-limit logic of the
repository's Python scripts, together with proofs of the specification
claims about them.

Python floats are modelled as rationals (`ℚ`), Python `None` as `Option`,
Python dictionaries of indicator values as structures with `Option ℚ`
fields, and Python strings as Lean `String`/`List Char` (Python's `in`
substring test becomes `List.IsInfix` on the character lists).
-/

namespace PyPrim

/-- Base-10 value of a digit string, `digitsVal ['1','2','3'] = 123`. -/
def digitsVal (l : List Char) : ℕ :=
  l.foldl (fun a c => 10 * a + (c.toNat - '0'.toNat)) 0

/-- Split a character list at the first `'.'`: returns the part before it and,
when a dot is present, the part after it. -/
def splitDot : List Char → List Char × Option (List Char)
  | [] => ([], none)
  | c :: cs =>
    if c = '.' then ([], some cs)
    else
      let r := splitDot cs
      (c :: r.1, r.2)

/-- Strip one leading `'-'` or `'+'` sign, returning whether it was a minus. -/
def stripSign : List Char → Bool × List Char
  | [] => (false, [])
  | c :: cs =>
    if c = '-' then (true, cs)
    else if c = '+' then (false, cs)
    else (false, c :: cs)

/-- Python's `str.strip()` on a character list (whitespace removed from both
ends). -/
def pyStrip (l : List Char) : List Char :=
  ((l.dropWhile Char.isWhitespace).reverse.dropWhile Char.isWhitespace).reverse

/-- The Python builtin `float(s)`, modelled on the decimal fragment the
scripts feed it: optional surrounding whitespace, an optional sign, digits
with an optional fractional part (`"12"`, `"12."`, `".5"`, `"-3.25"`).
Exponents, `inf`/`nan` and digit underscores are outside the fragment and
are mapped to `none` like any other non-numeral; Python's `ValueError` is
modelled as `none`. -/
def pyFloat (cs : List Char) : Option ℚ :=
  let cs := pyStrip cs
  let sr := stripSign cs
  match splitDot sr.2 with
  | (ip, none) =>
    if ip ≠ [] ∧ ip.all Char.isDigit then
      some ((if sr.1 then -1 else 1) * (digitsVal ip : ℚ))
    else none
  | (ip, some fp) =>
    if ip.all Char.isDigit ∧ fp.all Char.isDigit ∧ (ip ≠ [] ∨ fp ≠ []) then
      some ((if sr.1 then -1 else 1) *
        ((digitsVal ip : ℚ) + (digitsVal fp : ℚ) / 10 ^ fp.length))
    else none

/-- `true` on characters that survive the separator-removal
`replace(',','').replace(' ','').replace('，','')` used by the parsers. -/
def notSep (c : Char) : Bool :=
  !(c == ',' || c == ' ' || c == '，')

/-- Python truthiness of an optional float: `None` and `0.0` are falsy. -/
def truthy : Option ℚ → Bool
  | none => false
  | some v => decide (v ≠ 0)

/-- Round half to even to an integer, as Python's builtin `round` does. -/
def roundHalfEven (q : ℚ) : ℤ :=
  let f := ⌊q⌋
  if q - f < 1 / 2 then f
  else if q - f > 1 / 2 then f + 1
  else if f % 2 = 0 then f else f + 1

/-- Python's `round(x, 2)`. -/
def pyRound2 (q : ℚ) : ℚ :=
  (roundHalfEven (q * 100) : ℚ) / 100

/-- Python's substring test `needle in hay`. -/
def hasSub (needle hay : String) : Bool :=
  decide (needle.data <:+: hay.data)

/-- Python's `str.split(sep)` for a one-character separator:
`splitOnChar '_' "a_b".data = ["a".data, "b".data]`, and the empty string
splits to `[[]]`, as in Python. -/
def splitOnChar (sep : Char) : List Char → List (List Char)
  | [] => [[]]
  | c :: cs =>
    if c = sep then [] :: splitOnChar sep cs
    else
      match splitOnChar sep cs with
      | [] => [[c]]
      | g :: gs => (c :: g) :: gs

end PyPrim

open PyPrim

namespace ExtractHkV2

/-- `parse_number` of `extract_hk_v2.py` (lines 69-79): separators removed,
the string stripped, a parenthesised numeral turned into a leading minus,
then `float(...)`; any parse failure gives `None`. -/
def parse_number (text : String) : Option ℚ :=
  if text = "" then none
  else
    let cs := text.data.filter notSep
    let cs := pyStrip cs
    let cs :=
      if cs.head? = some '(' ∧ cs.getLast? = some ')' then
        '-' :: (cs.drop 1).dropLast
      else cs
    pyFloat cs

/-- The unit-detection block of `extract_financials` in `extract_hk_v2.py`
(lines 101-107): `data['unit']` defaults to `1000000` and the keywords are
tested in the order 千元, 百萬/百万, 億/亿 — the first hit wins. -/
def detect_unit (text : String) : ℕ :=
  if hasSub "千元" text then 1000
  else if hasSub "百萬" text || hasSub "百万" text then 1000000
  else if hasSub "億" text || hasSub "亿" text then 100000000
  else 1000000

/-- The extracted-data record of `extract_financials` (value fields only). -/
structure HkV2Data where
  revenue : Option ℚ := none
  net_profit : Option ℚ := none
  total_assets : Option ℚ := none
  total_equity : Option ℚ := none
  gross_margin : Option ℚ := none
  net_margin : Option ℚ := none
  roe : Option ℚ := none
  unit : ℕ := 1000000

/-- The ratio block of `extract_financials` in `extract_hk_v2.py`
(lines 193-199).  Each guard is a Python truthiness test of both operands,
so the ratio is skipped when an operand is `None` or exactly `0`; `gross`
is the local variable holding the matched gross profit. -/
def derive_ratios (data : HkV2Data) (gross : Option ℚ) : HkV2Data :=
  let data :=
    if truthy data.revenue ∧ truthy gross then
      { data with gross_margin := some (pyRound2 (gross.getD 0 / data.revenue.getD 0 * 100)) }
    else data
  let data :=
    if truthy data.revenue ∧ truthy data.net_profit then
      { data with net_margin := some (pyRound2 (data.net_profit.getD 0 / data.revenue.getD 0 * 100)) }
    else data
  let data :=
    if truthy data.total_equity ∧ truthy data.net_profit then
      { data with roe := some (pyRound2 (data.net_profit.getD 0 / data.total_equity.getD 0 * 100)) }
    else data
  data

/-- The database row built by `save_to_db` in `extract_hk_v2.py`: the value
fields after the unit conversion of lines 270-275. -/
structure HkDbRow where
  revenue : Option ℚ
  net_profit : Option ℚ
  total_assets : Option ℚ
  total_equity : Option ℚ
  total_liabilities : Option ℚ

/-- The unit-conversion block of `save_to_db` in `extract_hk_v2.py`
(lines 270-275): each base value is multiplied by `data['unit']` when
truthy, and total liabilities is derived from the two scaled totals. -/
def save_to_db_values (data : HkV2Data) : HkDbRow :=
  let revenue := if truthy data.revenue then some (data.revenue.getD 0 * data.unit) else none
  let net_profit := if truthy data.net_profit then some (data.net_profit.getD 0 * data.unit) else none
  let total_assets := if truthy data.total_assets then some (data.total_assets.getD 0 * data.unit) else none
  let total_equity := if truthy data.total_equity then some (data.total_equity.getD 0 * data.unit) else none
  let total_liabilities :=
    if truthy total_assets ∧ truthy total_equity then
      some (total_assets.getD 0 - total_equity.getD 0)
    else none
  ⟨revenue, net_profit, total_assets, total_equity, total_liabilities⟩

end ExtractHkV2

namespace ExtractHkFin

/-- `parse_number` of `extract_hk_financials.py` (lines 73-85): same as the
v2 parser but without the final `strip()`. -/
def parse_number (text : String) : Option ℚ :=
  if text = "" then none
  else
    let cs := text.data.filter notSep
    let cs :=
      if cs.head? = some '(' ∧ cs.getLast? = some ')' then
        '-' :: (cs.drop 1).dropLast
      else cs
    pyFloat cs

/-- `extract_pdf_text` of `extract_hk_financials.py` (lines 57-68): the PDF
is modelled as the list of its pages' extracted texts, `none` standing for a
page whose `extract_text()` raised (the `except: continue` branch).  Only
`reader.pages[:max_pages]` is visited, `max_pages` defaulting to 15, and
each visited page contributes `text + '\n'`. -/
def extract_pdf_text (pages : List (Option String)) (max_pages : ℕ := 15) : String :=
  ((pages.take max_pages).filterMap id).foldl (fun acc t => acc ++ t ++ "\n") ""

end ExtractHkFin

namespace FinReports

/-- `FinancialReportParser.parse_number` of `fetch_financial_from_reports.py`
(lines 120-143): separators are removed and the string handed to `float`
(no parenthesised-negative handling), then the optional `unit` string
converts the value to 亿元.  A `ValueError` from `float` is `none`. -/
def parse_number (value_str : String) (unit : Option String) : Option ℚ :=
  if value_str = "" then none
  else
    let clean := value_str.data.filter notSep
    match pyFloat clean with
    | none => none
    | some value =>
      match unit with
      | none => some value
      | some u =>
        if u = "" then some value
        else
          let u := String.mk (u.data.map Char.toLower)
          if hasSub "万" u then some (value / 10000)
          else if hasSub "百万" u then some (value / 100)
          else if hasSub "元" u ∧ ¬ hasSub "万" u ∧ ¬ hasSub "亿" u then
            some (value / 100000000)
          else some value

/-- `FinancialReportParser.extract_from_text` (lines 145-156), abstracted
over the regex engine: `findall p` stands for `re.findall(p, text,
re.IGNORECASE)` on the fixed input text.  The first pattern with a
non-empty match list wins and its first match is parsed — with no `unit`
argument, so no unit scaling is applied on this path. -/
def extract_from_text (findall : String → List String) : List String → Option ℚ
  | [] => none
  | p :: rest =>
    match findall p with
    | [] => extract_from_text findall rest
    | m :: _ => parse_number m none

/-- The field-value dictionary flowing through `calculate_derived_indicators`
(`fetch_financial_from_reports.py`): every indicator key, absent keys being
`none`. -/
structure FinData where
  revenue : Option ℚ := none
  net_profit : Option ℚ := none
  total_assets : Option ℚ := none
  total_equity : Option ℚ := none
  total_liabilities : Option ℚ := none
  operating_cash_flow : Option ℚ := none
  current_assets : Option ℚ := none
  current_liabilities : Option ℚ := none
  inventory : Option ℚ := none
  accounts_receivable : Option ℚ := none
  roe : Option ℚ := none
  gross_margin : Option ℚ := none
  net_margin : Option ℚ := none
  asset_turnover : Option ℚ := none
  equity_multiplier : Option ℚ := none
  asset_liability_ratio : Option ℚ := none
  current_ratio : Option ℚ := none
  quick_ratio : Option ℚ := none

/-- `calculate_derived_indicators` of `fetch_financial_from_reports.py`
(lines 372-404).  Each `if` mirrors one guarded assignment of the source;
the guards are Python truthiness tests (`None` and `0.0` both fail), and
each assignment writes a distinct key, reading only undisturbed base keys,
so the sequential writes are rendered as a sequence of record updates. -/
def calculate_derived_indicators (data : FinData) : FinData :=
  let result := data
  let result :=
    if result.roe = none ∧ truthy result.net_profit ∧ truthy result.total_equity then
      { result with roe := some (result.net_profit.getD 0 / result.total_equity.getD 0 * 100) }
    else result
  let result :=
    if result.net_margin = none ∧ truthy result.net_profit ∧ truthy result.revenue then
      { result with net_margin := some (result.net_profit.getD 0 / result.revenue.getD 0 * 100) }
    else result
  let result :=
    if truthy result.revenue ∧ truthy result.total_assets then
      { result with asset_turnover := some (result.revenue.getD 0 / result.total_assets.getD 0) }
    else result
  let result :=
    if truthy result.total_assets ∧ truthy result.total_equity then
      { result with equity_multiplier := some (result.total_assets.getD 0 / result.total_equity.getD 0) }
    else result
  let result :=
    if truthy result.total_liabilities ∧ truthy result.total_assets then
      { result with asset_liability_ratio := some (result.total_liabilities.getD 0 / result.total_assets.getD 0 * 100) }
    else result
  let result :=
    if truthy result.current_assets ∧ truthy result.current_liabilities then
      { result with current_ratio := some (result.current_assets.getD 0 / result.current_liabilities.getD 0) }
    else result
  let result :=
    if truthy result.current_assets ∧ truthy result.inventory ∧ truthy result.current_liabilities then
      { result with quick_ratio := some ((result.current_assets.getD 0 - result.inventory.getD 0) / result.current_liabilities.getD 0) }
    else result
  result

/-- The page budget of `FinancialReportParser.parse_pdf_with_source`
(line 279): `pages_to_read = min(150, total_pages)`. -/
def pages_to_read (total_pages : ℕ) : ℕ := min 150 total_pages

/-- The page texts collected by `parse_pdf_with_source` (lines 295-314): the
PDF is modelled as the list of its pages' `extract_text()` results, `none`
standing for a page whose extraction raised (skipped by `continue`); only
the first `min(150, total_pages)` pages are visited, and only non-empty
texts are kept (`if page_text:`). -/
def page_texts (pages : List (Option String)) : List String :=
  (((pages.take (pages_to_read pages.length)).filterMap id).filter (fun t => t ≠ ""))

/-- The per-field scan of `parse_pdf_with_source` (lines 339-350): the
collected page texts are searched in order and the first page on which the
field's extractor succeeds wins (`break`).  `extract` abstracts
`extract_from_text_with_source` applied to one page's text for the fixed
field. -/
def find_field (extract : String → Option ℚ) (pages : List (Option String)) : Option ℚ :=
  (page_texts pages).findSome? extract

/-- The sort key applied by `parse_all_quarterly_reports`
(`fetch_financial_from_reports.py`, line 533):
`(x.split('_')[0], x.split('_')[1])`, compared with `reverse=True`.
(Indexing `[1]` is total on the keys of `all_data`, which all contain an
underscore; the out-of-range case is rendered as the empty string.) -/
def quarterly_sort_key (x : String) : List Char × List Char :=
  let parts := splitOnChar '_' x.data
  (parts.getD 0 [], parts.getD 1 [])

/-- Lexicographic order on the key pairs, as Python compares tuples of
strings (strings compared lexicographically by code points, which is the
`<` of `List Char`). -/
def pairLe (a b : List Char × List Char) : Prop :=
  a.1 < b.1 ∨ (a.1 = b.1 ∧ (a.2 < b.2 ∨ a.2 = b.2))

instance (a b : List Char × List Char) : Decidable (pairLe a b) := by
  unfold pairLe; infer_instance

/-- Descending comparison of two keys by their Python sort key, the order
`sorted(..., reverse=True)` arranges by. -/
def quarterly_key_ge (a b : String) : Prop :=
  pairLe (quarterly_sort_key b) (quarterly_sort_key a)

instance : DecidableRel quarterly_key_ge := fun a b => by
  unfold quarterly_key_ge; infer_instance

/-- The key sorting of `parse_all_quarterly_reports` (line 533):
`sorted(all_data.keys(), key=..., reverse=True)`, i.e. a stable sort that
puts larger `(year-string, type-string)` pairs first (`insertionSort` is
stable, like Python's sort). -/
def quarterly_sorted_keys (keys : List String) : List String :=
  keys.insertionSort quarterly_key_ge

end FinReports

namespace MetricsTable

/-- `MetricsTableGenerator.REPORT_TYPE_ORDER` of `generate_metrics_table.py`
(line 20). -/
def REPORT_TYPE_ORDER : List (List Char × ℕ) :=
  [("annual".data, 0), ("q3".data, 1), ("semi".data, 2), ("q1".data, 3)]

/-- `REPORT_TYPE_ORDER.get(report_type, 99)`. -/
def type_order (report_type : List Char) : ℕ :=
  ((REPORT_TYPE_ORDER.find? (fun p => p.1 = report_type)).map Prod.snd).getD 99

/-- `sort_key` inside `MetricsTableGenerator._sort_report_keys`
(`generate_metrics_table.py`, lines 68-73): the key `'2024_annual'` maps to
`(-2024, 0)`.  `int(parts[0]) if parts[0].isdigit() else 0` becomes the
digit-string value under the `isdigit` guard. -/
def sort_key (key : String) : ℤ × ℕ :=
  let parts := splitOnChar '_' key.data
  let p0 := parts.getD 0 []
  let year : ℕ := if p0 ≠ [] ∧ p0.all Char.isDigit then digitsVal p0 else 0
  let report_type := if parts.length > 1 then parts.getD 1 [] else "annual".data
  (-(year : ℤ), type_order report_type)

/-- Lexicographic order on the `(−year, type priority)` keys. -/
def keyLe (a b : String) : Prop :=
  (sort_key a).1 < (sort_key b).1 ∨
    ((sort_key a).1 = (sort_key b).1 ∧ (sort_key a).2 ≤ (sort_key b).2)

instance : DecidableRel keyLe := fun a b => by
  unfold keyLe; infer_instance

/-- `MetricsTableGenerator._sort_report_keys` (lines 62-75): a stable sort
by `sort_key` ascending, i.e. year descending then report-type priority
(`insertionSort` is stable, like Python's `sorted`). -/
def sort_report_keys (keys : List String) : List String :=
  keys.insertionSort keyLe

end MetricsTable

namespace Utils

/-- `normalize_stock_code` of `utils.py` (lines 40-73), returning the
`(normalized_code, market, market_type)` triple.  `code.strip().upper()` is
whitespace-stripping plus per-character uppercasing; `'.' in code` is a
character-membership test; `code.split('.')[1]` is total here (a string
containing `'.'` splits into at least two parts); `startswith` of a single
character inspects the head. -/
def normalize_stock_code (code : String) : String × String × String :=
  let cs := (pyStrip code.data).map Char.toUpper
  if cs.contains '.' then
    let parts := splitOnChar '.' cs
    let market := parts.getD 1 []
    let market_type := if market = "HK".data then "HK" else "A"
    (String.mk cs, String.mk market, market_type)
  else if cs.length = 5 ∧ cs.all Char.isDigit ∧ cs ≠ [] then
    (String.mk (cs ++ ".HK".data), "HK", "HK")
  else if cs.head? = some '6' then
    (String.mk (cs ++ ".SH".data), "SH", "A")
  else if cs.head? = some '0' ∨ cs.head? = some '3' then
    (String.mk (cs ++ ".SZ".data), "SZ", "A")
  else if cs.head? = some '8' ∨ cs.head? = some '4' then
    (String.mk (cs ++ ".BJ".data), "BJ", "A")
  else
    (String.mk (cs ++ ".SH".data), "SH", "A")

end Utils

namespace Xueqiu

/-- `POSITIVE_KEYWORDS` of `fetch_xueqiu_discussions.py` (lines 44-48). -/
def POSITIVE_KEYWORDS : List String :=
  ["看好", "利好", "增长", "超预期", "涨", "牛", "买入", "推荐",
   "优秀", "强劲", "突破", "创新高", "加仓", "抄底", "机会",
   "潜力", "成长", "价值", "低估", "龙头"]

/-- `NEGATIVE_KEYWORDS` of `fetch_xueqiu_discussions.py` (lines 50-54). -/
def NEGATIVE_KEYWORDS : List String :=
  ["看空", "利空", "下跌", "不及预期", "跌", "熊", "卖出", "减持",
   "风险", "危机", "亏损", "暴雷", "割肉", "套牢", "高估",
   "泡沫", "崩盘", "见顶", "清仓", "警惕"]

/-- The risk keywords tested inside `analyze_discussions` (line 320). -/
def RISK_KEYWORDS : List String :=
  ["风险", "问题", "担心", "下跌", "亏损", "危机", "暴雷", "减持", "清仓"]

/-- `analyze_sentiment` (lines 246-260): counts how many keywords of each
list occur in the content (`kw in content`) and takes the majority, with
`'neutral'` on a tie. -/
def analyze_sentiment (content : String) : String :=
  let positive_count := (POSITIVE_KEYWORDS.filter (fun kw => hasSub kw content)).length
  let negative_count := (NEGATIVE_KEYWORDS.filter (fun kw => hasSub kw content)).length
  if positive_count > negative_count then "positive"
  else if negative_count > positive_count then "negative"
  else "neutral"

/-- A scraped discussion post (the fields `analyze_discussions` reads). -/
structure Post where
  content : String
  likes : ℕ
  author : String
  date : String
deriving DecidableEq

/-- A key-opinion entry appended to the bullish/bearish lists
(lines 305-317): content truncated to 200 characters plus likes, author and
date. -/
structure Opinion where
  content : String
  likes : ℕ
  author : String
  date : String
deriving DecidableEq

/-- A risk-mention entry (lines 322-326). -/
structure RiskMention where
  content : String
  likes : ℕ
  date : String
deriving DecidableEq

/-- Builds the key-opinion entry for a post. -/
def mkOpinion (d : Post) : Opinion :=
  ⟨d.content.take 200, d.likes, d.author, d.date⟩

/-- Builds the risk-mention entry for a post. -/
def mkRisk (d : Post) : RiskMention :=
  ⟨d.content.take 200, d.likes, d.date⟩

/-- The `sentiment` sub-dictionary of the analysis result. -/
structure SentimentStats where
  positive : ℕ
  negative : ℕ
  neutral : ℕ
  score : ℚ
deriving DecidableEq

/-- The analysis result of `analyze_discussions` (the fields the claims are
about; `fetch_time` and the unused `hot_topics` are omitted). -/
structure Analysis where
  total_discussions : ℕ
  sentiment : SentimentStats
  bullish : List Opinion
  bearish : List Opinion
  risk_mentions : List RiskMention
  discussions_sample : List Post
deriving DecidableEq

/-- The running state of the per-post loop of `analyze_discussions`
(lines 295-326). -/
structure LoopAcc where
  pos : ℕ
  neg : ℕ
  neu : ℕ
  bullish : List Opinion
  bearish : List Opinion
  risk : List RiskMention

/-- One iteration of the loop: classify the post, bump the matching
counter, append the opinion to its bucket, and record a risk mention when a
risk keyword occurs. -/
def loop_step (acc : LoopAcc) (d : Post) : LoopAcc :=
  let s := analyze_sentiment d.content
  let acc :=
    if s = "positive" then
      { acc with pos := acc.pos + 1, bullish := acc.bullish ++ [mkOpinion d] }
    else if s = "negative" then
      { acc with neg := acc.neg + 1, bearish := acc.bearish ++ [mkOpinion d] }
    else { acc with neu := acc.neu + 1 }
  if RISK_KEYWORDS.any (fun kw => hasSub kw d.content) then
    { acc with risk := acc.risk ++ [mkRisk d] }
  else acc

/-- Descending-by-likes comparison used for `sort(key=lambda x: x['likes'],
reverse=True)`; `insertionSort` with it is stable exactly like Python's
sort. -/
def opinionGe (a b : Opinion) : Prop := b.likes ≤ a.likes

instance : DecidableRel opinionGe := fun a b => by
  unfold opinionGe; infer_instance

/-- Descending-by-likes comparison for risk mentions. -/
def riskGe (a b : RiskMention) : Prop := b.likes ≤ a.likes

instance : DecidableRel riskGe := fun a b => by
  unfold riskGe; infer_instance

/-- `analyze_discussions` (lines 263-347): early return on an empty list,
otherwise one pass of `loop_step` per post, the aggregate score
`round((positive − negative) / total, 2)` guarded by `total > 0`, and each
opinion list sorted by likes descending and truncated to 10 entries. -/
def analyze_discussions (discussions : List Post) : Analysis :=
  if discussions = [] then
    ⟨0, ⟨0, 0, 0, 0⟩, [], [], [], []⟩
  else
    let acc := discussions.foldl loop_step ⟨0, 0, 0, [], [], []⟩
    let total := acc.pos + acc.neg + acc.neu
    let score : ℚ :=
      if total > 0 then pyRound2 (((acc.pos : ℚ) - (acc.neg : ℚ)) / (total : ℚ)) else 0
    ⟨discussions.length,
     ⟨acc.pos, acc.neg, acc.neu, score⟩,
     (acc.bullish.insertionSort opinionGe).take 10,
     (acc.bearish.insertionSort opinionGe).take 10,
     (acc.risk.insertionSort riskGe).take 10,
     discussions.take 20⟩

/-- Claim-side predicate: the post is classified bullish. -/
def isPositive (d : Post) : Bool :=
  decide (analyze_sentiment d.content = "positive")

/-- Claim-side predicate: the post is classified bearish. -/
def isNegative (d : Post) : Bool :=
  decide (analyze_sentiment d.content = "negative")

/-- Claim-side predicate: the post lands in the neutral bucket (the `else`
branch of the counting loop). -/
def isNeutral (d : Post) : Bool :=
  decide (analyze_sentiment d.content ≠ "positive" ∧
    analyze_sentiment d.content ≠ "negative")

/-- The spec's example workload: 6 bullish, 2 bearish and 2 neutral posts
(`涨` and `跌` are sentiment keywords; the empty content matches none). -/
def exampleDiscussions : List Post :=
  [⟨"涨", 5, "u1", "d"⟩, ⟨"涨", 4, "u2", "d"⟩, ⟨"涨", 3, "u3", "d"⟩,
   ⟨"涨", 2, "u4", "d"⟩, ⟨"涨", 1, "u5", "d"⟩, ⟨"涨", 0, "u6", "d"⟩,
   ⟨"跌", 7, "u7", "d"⟩, ⟨"跌", 6, "u8", "d"⟩,
   ⟨"", 9, "u9", "d"⟩, ⟨"", 8, "u10", "d"⟩]

end Xueqiu

namespace BatchHk

/-- The outcome of `download_hk_reports` (`batch_hk_stocks.py`,
lines 128-185): whether it returned `True`, whether the network path (the
`analyze_company.py` subprocess) was entered, and the resulting contents of
the stock's data directory. -/
structure DlOutcome where
  success : Bool
  network_called : Bool
  dir_contents : List String
deriving DecidableEq

/-- `download_hk_reports`, modelled on its directory state: `all_pdfs` is
the glob result over `data/{code}_*/*.pdf` (lines 139-144), `annual_pdfs`
the `find_pdf_files` result (line 152), and `network_run` abstracts the
subprocess branch (lines 157-185), returning its success flag and the
directory contents it leaves behind.  With ≥ 3 PDFs already present the
function returns `True` before any network work (lines 146-155). -/
def download_hk_reports (all_pdfs annual_pdfs : List String)
    (network_run : List String → Bool × List String) : DlOutcome :=
  if 3 ≤ all_pdfs.length then ⟨true, false, all_pdfs⟩
  else if 3 ≤ annual_pdfs.length then ⟨true, false, all_pdfs⟩
  else
    let r := network_run all_pdfs
    ⟨r.1, true, r.2⟩

end BatchHk

namespace FetchReports

/-- The per-file copy loop of `download_reports_by_type`
(`fetch_reports.py`, lines 369-394), modelled on destination-directory
contents (filenames): each source PDF whose name passes the report-type
filter (`should_copy`) is copied only when `dst_path.exists()` is false.
Returns the new destination contents and the `downloaded_files` list, in
iteration order. -/
def copy_reports (should_copy : String → Bool) :
    List String → List String → List String × List String
  | [], dst => (dst, [])
  | f :: rest, dst =>
    if should_copy f ∧ f ∉ dst then
      let r := copy_reports should_copy rest (dst ++ [f])
      (r.1, f :: r.2)
    else copy_reports should_copy rest dst

end FetchReports

namespace NumGrammar

/-!
Claim-side grammar of the numeric strings the spec quantifies over: digit
groups joined by a thousands separator, an optional decimal part, and an
optional enclosing parenthesis pair denoting a negative.
-/

/-- Digit groups joined by the separator character:
`groupJoin ',' [['1'],['2','3','4']] = "1,234".data`. -/
def groupJoin (sep : Char) : List (List Char) → List Char
  | [] => []
  | [g] => g
  | g :: gs => g ++ sep :: groupJoin sep gs

/-- The rendered decimal part: `'.'` and the fractional digits, when
present. -/
def dotPart : Option (List Char) → List Char
  | some f => '.' :: f
  | none => []

/-- The value contributed by the fractional digits. -/
def fracVal : Option (List Char) → ℚ
  | some f => (digitsVal f : ℚ) / 10 ^ f.length
  | none => 0

/-- The unsigned numeral: joined digit groups, then `.` and the fractional
digits when present. -/
def numCore (sep : Char) (groups : List (List Char)) (frac : Option (List Char)) : List Char :=
  groupJoin sep groups ++ dotPart frac

/-- The rendered numeric string, wrapped in parentheses when negative. -/
def mkNumStr (neg : Bool) (sep : Char) (groups : List (List Char))
    (frac : Option (List Char)) : String :=
  String.mk (if neg then '(' :: numCore sep groups frac ++ [')'] else numCore sep groups frac)

/-- The mathematical value the rendered string denotes. -/
def numVal (neg : Bool) (groups : List (List Char)) (frac : Option (List Char)) : ℚ :=
  (if neg then -1 else 1) * ((digitsVal groups.flatten : ℚ) + fracVal frac)

end NumGrammar

/-!
## Helper lemmas
-/

theorem truthy_none : truthy none = false := rfl

theorem truthy_iff (o : Option ℚ) : truthy o = true ↔ ∃ v, o = some v ∧ v ≠ 0 := by
  cases o <;> simp [truthy]

theorem truthy_some_iff (v : ℚ) : truthy (some v) = true ↔ v ≠ 0 := by
  simp [truthy]

instance : IsTrans String MetricsTable.keyLe :=
  ⟨fun a b c hab hbc => by unfold MetricsTable.keyLe at *; omega⟩

instance : IsTotal String MetricsTable.keyLe :=
  ⟨fun a b => by unfold MetricsTable.keyLe; omega⟩

theorem FinReports.pairLe_trans (a b c : List Char × List Char) :
    FinReports.pairLe a b → FinReports.pairLe b c → FinReports.pairLe a c := by
  rintro (h1 | ⟨e1, h2⟩) (h3 | ⟨e3, h4⟩)
  · exact Or.inl (h1.trans h3)
  · exact Or.inl (by rw [← e3]; exact h1)
  · exact Or.inl (by rw [e1]; exact h3)
  · refine Or.inr ⟨e1.trans e3, ?_⟩
    rcases h2 with h2 | h2 <;> rcases h4 with h4 | h4
    · exact Or.inl (h2.trans h4)
    · exact Or.inl (by rw [← h4]; exact h2)
    · exact Or.inl (by rw [h2]; exact h4)
    · exact Or.inr (h2.trans h4)

theorem FinReports.pairLe_total (a b : List Char × List Char) :
    FinReports.pairLe a b ∨ FinReports.pairLe b a := by
  rcases lt_trichotomy a.1 b.1 with h | h | h
  · exact Or.inl (Or.inl h)
  · rcases lt_trichotomy a.2 b.2 with h2 | h2 | h2
    · exact Or.inl (Or.inr ⟨h, Or.inl h2⟩)
    · exact Or.inl (Or.inr ⟨h, Or.inr h2⟩)
    · exact Or.inr (Or.inr ⟨h.symm, Or.inl h2⟩)
  · exact Or.inr (Or.inl h)

instance : IsTrans String FinReports.quarterly_key_ge :=
  ⟨fun a b c hab hbc => FinReports.pairLe_trans _ _ _ hbc hab⟩

instance : IsTotal String FinReports.quarterly_key_ge :=
  ⟨fun a b => (FinReports.pairLe_total _ _).symm⟩

instance : IsTrans Xueqiu.Opinion Xueqiu.opinionGe :=
  ⟨fun a b c hab hbc => le_trans hbc hab⟩

instance : IsTotal Xueqiu.Opinion Xueqiu.opinionGe :=
  ⟨fun a b => (le_total b.likes a.likes).imp id id⟩

/-!
## Claim C1 — period-record key sorting
-/

/-- C1, counterexample: the claim asserts that the sorting in
`parse_all_quarterly_reports` puts `2024_annual` before `2024_q3`; on the
key set of its own example it instead outputs `2024_q3` first, because
`reverse=True` on the `(year-string, type-string)` tuples is
reverse-lexicographic within a year. -/
theorem claim_C1_counterexample :
    FinReports.quarterly_sorted_keys ["2023_annual", "2024_annual", "2024_q3"] ≠
      ["2024_annual", "2024_q3", "2023_annual"] ∧
    FinReports.quarterly_sorted_keys ["2023_annual", "2024_annual", "2024_q3"] =
      ["2024_q3", "2024_annual", "2023_annual"] := by
  constructor <;> decide

/-- C1, amended: `_sort_report_keys` in `generate_metrics_table.py` orders
keys by year descending and, within a year, by the report-type priority
(annual, q3, semi, q1), giving `2024_annual, 2024_q3, 2023_annual` on the
example set; `parse_all_quarterly_reports` in
`fetch_financial_from_reports.py` sorts keys by the pair
`(year string, type string)` descending, which is year-descending but
reverse-lexicographic in the type within one year (semi, q3, q1, annual),
so it outputs the example set as `2024_q3, 2024_annual, 2023_annual`. -/
theorem claim_C1 :
    (MetricsTable.sort_report_keys ["2023_annual", "2024_annual", "2024_q3"] =
      ["2024_annual", "2024_q3", "2023_annual"]) ∧
    (∀ keys : List String, (MetricsTable.sort_report_keys keys).Perm keys ∧
      (MetricsTable.sort_report_keys keys).Pairwise (fun a b =>
        (MetricsTable.sort_key a).1 < (MetricsTable.sort_key b).1 ∨
          ((MetricsTable.sort_key a).1 = (MetricsTable.sort_key b).1 ∧
            (MetricsTable.sort_key a).2 ≤ (MetricsTable.sort_key b).2))) ∧
    (FinReports.quarterly_sorted_keys ["2023_annual", "2024_annual", "2024_q3"] =
      ["2024_q3", "2024_annual", "2023_annual"]) ∧
    (∀ keys : List String, (FinReports.quarterly_sorted_keys keys).Perm keys ∧
      (FinReports.quarterly_sorted_keys keys).Pairwise (fun a b =>
        FinReports.pairLe (FinReports.quarterly_sort_key b) (FinReports.quarterly_sort_key a))) := by
  refine ⟨by decide, fun keys => ⟨List.perm_insertionSort _ keys, ?_⟩, by decide,
    fun keys => ⟨List.perm_insertionSort _ keys, ?_⟩⟩
  · exact (List.sorted_insertionSort MetricsTable.keyLe keys).imp (fun h => h)
  · exact (List.sorted_insertionSort FinReports.quarterly_key_ge keys).imp (fun h => h)

/-!
## Claim C7 — stock-code normalization
-/

/-- C7, counterexample: the claim says any code already carrying a
'.'-separated market suffix is returned unchanged, but the function first
applies `strip().upper()`, so the lower-case input `"600519.sh"` comes back
as `"600519.SH"`. -/
theorem claim_C7_counterexample :
    (Utils.normalize_stock_code "600519.sh").1 ≠ "600519.sh" ∧
    (Utils.normalize_stock_code "600519.sh").1 = "600519.SH" := by
  constructor <;> decide

/-- C7, amended: `"600519" ↦ "600519.SH"`, `"000001" ↦ "000001.SZ"`,
`"00700" ↦ "00700.HK"`, and a code carrying a '.'-separated market suffix
is returned unchanged provided it is already stripped and upper-case (in
general the suffix branch returns `code.strip().upper()`). -/
theorem claim_C7 :
    (Utils.normalize_stock_code "600519").1 = "600519.SH" ∧
    (Utils.normalize_stock_code "000001").1 = "000001.SZ" ∧
    (Utils.normalize_stock_code "00700").1 = "00700.HK" ∧
    ∀ code : String,
      (pyStrip code.data).map Char.toUpper = code.data →
      code.data.contains '.' = true →
      (Utils.normalize_stock_code code).1 = code := by
  refine ⟨by decide, by decide, by decide, fun code h1 h2 => ?_⟩
  unfold Utils.normalize_stock_code
  rw [h1, if_pos h2]

/-- C7, witness: the suffix branch of `claim_C7` applied at the concrete
code `"600519.SH"`. -/
theorem claim_C7_witness :
    ((pyStrip "600519.SH".data).map Char.toUpper = "600519.SH".data ∧
      "600519.SH".data.contains '.' = true) ∧
    (Utils.normalize_stock_code "600519.SH").1 = "600519.SH" :=
  ⟨⟨by decide, by decide⟩, claim_C7.2.2.2 "600519.SH" (by decide) (by decide)⟩

/-!
## Bridge lemmas for the derived-indicator computations
-/

theorem calc_roe (d : FinReports.FinData) :
    (FinReports.calculate_derived_indicators d).roe =
      if d.roe = none ∧ truthy d.net_profit ∧ truthy d.total_equity then
        some (d.net_profit.getD 0 / d.total_equity.getD 0 * 100)
      else d.roe := by
  simp only [FinReports.calculate_derived_indicators,
    apply_ite FinReports.FinData.roe, apply_ite FinReports.FinData.net_margin,
    apply_ite FinReports.FinData.revenue, apply_ite FinReports.FinData.net_profit,
    apply_ite FinReports.FinData.total_assets, apply_ite FinReports.FinData.total_equity,
    apply_ite FinReports.FinData.total_liabilities, apply_ite FinReports.FinData.current_assets,
    apply_ite FinReports.FinData.current_liabilities, apply_ite FinReports.FinData.inventory,
    ite_self]

theorem calc_net_margin (d : FinReports.FinData) :
    (FinReports.calculate_derived_indicators d).net_margin =
      if d.net_margin = none ∧ truthy d.net_profit ∧ truthy d.revenue then
        some (d.net_profit.getD 0 / d.revenue.getD 0 * 100)
      else d.net_margin := by
  simp only [FinReports.calculate_derived_indicators,
    apply_ite FinReports.FinData.roe, apply_ite FinReports.FinData.net_margin,
    apply_ite FinReports.FinData.revenue, apply_ite FinReports.FinData.net_profit,
    apply_ite FinReports.FinData.total_assets, apply_ite FinReports.FinData.total_equity,
    apply_ite FinReports.FinData.total_liabilities, apply_ite FinReports.FinData.current_assets,
    apply_ite FinReports.FinData.current_liabilities, apply_ite FinReports.FinData.inventory,
    ite_self]

theorem calc_asset_turnover (d : FinReports.FinData) :
    (FinReports.calculate_derived_indicators d).asset_turnover =
      if truthy d.revenue ∧ truthy d.total_assets then
        some (d.revenue.getD 0 / d.total_assets.getD 0)
      else d.asset_turnover := by
  simp only [FinReports.calculate_derived_indicators,
    apply_ite FinReports.FinData.roe, apply_ite FinReports.FinData.net_margin,
    apply_ite FinReports.FinData.revenue, apply_ite FinReports.FinData.net_profit,
    apply_ite FinReports.FinData.total_assets, apply_ite FinReports.FinData.total_equity,
    apply_ite FinReports.FinData.total_liabilities, apply_ite FinReports.FinData.current_assets,
    apply_ite FinReports.FinData.current_liabilities, apply_ite FinReports.FinData.inventory,
    apply_ite FinReports.FinData.asset_turnover, ite_self]

theorem calc_equity_multiplier (d : FinReports.FinData) :
    (FinReports.calculate_derived_indicators d).equity_multiplier =
      if truthy d.total_assets ∧ truthy d.total_equity then
        some (d.total_assets.getD 0 / d.total_equity.getD 0)
      else d.equity_multiplier := by
  simp only [FinReports.calculate_derived_indicators,
    apply_ite FinReports.FinData.roe, apply_ite FinReports.FinData.net_margin,
    apply_ite FinReports.FinData.revenue, apply_ite FinReports.FinData.net_profit,
    apply_ite FinReports.FinData.total_assets, apply_ite FinReports.FinData.total_equity,
    apply_ite FinReports.FinData.total_liabilities, apply_ite FinReports.FinData.current_assets,
    apply_ite FinReports.FinData.current_liabilities, apply_ite FinReports.FinData.inventory,
    apply_ite FinReports.FinData.equity_multiplier, ite_self]

theorem calc_asset_liability_ratio (d : FinReports.FinData) :
    (FinReports.calculate_derived_indicators d).asset_liability_ratio =
      if truthy d.total_liabilities ∧ truthy d.total_assets then
        some (d.total_liabilities.getD 0 / d.total_assets.getD 0 * 100)
      else d.asset_liability_ratio := by
  simp only [FinReports.calculate_derived_indicators,
    apply_ite FinReports.FinData.roe, apply_ite FinReports.FinData.net_margin,
    apply_ite FinReports.FinData.revenue, apply_ite FinReports.FinData.net_profit,
    apply_ite FinReports.FinData.total_assets, apply_ite FinReports.FinData.total_equity,
    apply_ite FinReports.FinData.total_liabilities, apply_ite FinReports.FinData.current_assets,
    apply_ite FinReports.FinData.current_liabilities, apply_ite FinReports.FinData.inventory,
    apply_ite FinReports.FinData.asset_liability_ratio, ite_self]

theorem calc_current_ratio (d : FinReports.FinData) :
    (FinReports.calculate_derived_indicators d).current_ratio =
      if truthy d.current_assets ∧ truthy d.current_liabilities then
        some (d.current_assets.getD 0 / d.current_liabilities.getD 0)
      else d.current_ratio := by
  simp only [FinReports.calculate_derived_indicators,
    apply_ite FinReports.FinData.roe, apply_ite FinReports.FinData.net_margin,
    apply_ite FinReports.FinData.revenue, apply_ite FinReports.FinData.net_profit,
    apply_ite FinReports.FinData.total_assets, apply_ite FinReports.FinData.total_equity,
    apply_ite FinReports.FinData.total_liabilities, apply_ite FinReports.FinData.current_assets,
    apply_ite FinReports.FinData.current_liabilities, apply_ite FinReports.FinData.inventory,
    apply_ite FinReports.FinData.current_ratio, ite_self]

theorem calc_quick_ratio (d : FinReports.FinData) :
    (FinReports.calculate_derived_indicators d).quick_ratio =
      if truthy d.current_assets ∧ truthy d.inventory ∧ truthy d.current_liabilities then
        some ((d.current_assets.getD 0 - d.inventory.getD 0) / d.current_liabilities.getD 0)
      else d.quick_ratio := by
  simp only [FinReports.calculate_derived_indicators,
    apply_ite FinReports.FinData.roe, apply_ite FinReports.FinData.net_margin,
    apply_ite FinReports.FinData.revenue, apply_ite FinReports.FinData.net_profit,
    apply_ite FinReports.FinData.total_assets, apply_ite FinReports.FinData.total_equity,
    apply_ite FinReports.FinData.total_liabilities, apply_ite FinReports.FinData.current_assets,
    apply_ite FinReports.FinData.current_liabilities, apply_ite FinReports.FinData.inventory,
    apply_ite FinReports.FinData.quick_ratio, ite_self]

theorem hk_gross_margin (d : ExtractHkV2.HkV2Data) (gross : Option ℚ) :
    (ExtractHkV2.derive_ratios d gross).gross_margin =
      if truthy d.revenue ∧ truthy gross then
        some (pyRound2 (gross.getD 0 / d.revenue.getD 0 * 100))
      else d.gross_margin := by
  simp only [ExtractHkV2.derive_ratios,
    apply_ite ExtractHkV2.HkV2Data.gross_margin, apply_ite ExtractHkV2.HkV2Data.net_margin,
    apply_ite ExtractHkV2.HkV2Data.roe, apply_ite ExtractHkV2.HkV2Data.revenue,
    apply_ite ExtractHkV2.HkV2Data.net_profit, apply_ite ExtractHkV2.HkV2Data.total_equity,
    ite_self]

theorem hk_net_margin (d : ExtractHkV2.HkV2Data) (gross : Option ℚ) :
    (ExtractHkV2.derive_ratios d gross).net_margin =
      if truthy d.revenue ∧ truthy d.net_profit then
        some (pyRound2 (d.net_profit.getD 0 / d.revenue.getD 0 * 100))
      else d.net_margin := by
  simp only [ExtractHkV2.derive_ratios,
    apply_ite ExtractHkV2.HkV2Data.gross_margin, apply_ite ExtractHkV2.HkV2Data.net_margin,
    apply_ite ExtractHkV2.HkV2Data.roe, apply_ite ExtractHkV2.HkV2Data.revenue,
    apply_ite ExtractHkV2.HkV2Data.net_profit, apply_ite ExtractHkV2.HkV2Data.total_equity,
    ite_self]

theorem hk_roe (d : ExtractHkV2.HkV2Data) (gross : Option ℚ) :
    (ExtractHkV2.derive_ratios d gross).roe =
      if truthy d.total_equity ∧ truthy d.net_profit then
        some (pyRound2 (d.net_profit.getD 0 / d.total_equity.getD 0 * 100))
      else d.roe := by
  simp only [ExtractHkV2.derive_ratios,
    apply_ite ExtractHkV2.HkV2Data.gross_margin, apply_ite ExtractHkV2.HkV2Data.net_margin,
    apply_ite ExtractHkV2.HkV2Data.roe, apply_ite ExtractHkV2.HkV2Data.revenue,
    apply_ite ExtractHkV2.HkV2Data.net_profit, apply_ite ExtractHkV2.HkV2Data.total_equity,
    ite_self]

theorem not_truthy_none : ¬ truthy (none : Option ℚ) = true := by simp [truthy]

theorem not_truthy_some_zero : ¬ truthy (some (0 : ℚ)) = true := by simp [truthy]

theorem ite_changed {α : Type} {c : Prop} [Decidable c] {v old : α}
    (h : (if c then v else old) ≠ old) : c ∧ (if c then v else old) = v := by
  by_cases hc : c
  · exact ⟨hc, if_pos hc⟩
  · rw [if_neg hc] at h; exact absurd rfl h

/-!
## Claim C3 — derived-ratio guards
-/

/-- C3: in `calculate_derived_indicators` and in the ratio block of
`extract_financials` (extract_hk_v2.py), no derived value is added when a
required operand is missing or the denominator is exactly zero (the
division is never evaluated there, so no `ZeroDivisionError` can arise),
and whenever a derived value is added it equals the source's defining
formula over present operands with a non-zero denominator. -/
theorem claim_C3 :
    (∀ d : FinReports.FinData,
      ((d.net_profit = none ∨ d.total_equity = none ∨ d.total_equity = some 0) →
        (FinReports.calculate_derived_indicators d).roe = d.roe) ∧
      ((FinReports.calculate_derived_indicators d).roe ≠ d.roe →
        ∃ np te, d.net_profit = some np ∧ d.total_equity = some te ∧ te ≠ 0 ∧
          (FinReports.calculate_derived_indicators d).roe = some (np / te * 100)) ∧
      ((d.net_profit = none ∨ d.revenue = none ∨ d.revenue = some 0) →
        (FinReports.calculate_derived_indicators d).net_margin = d.net_margin) ∧
      ((FinReports.calculate_derived_indicators d).net_margin ≠ d.net_margin →
        ∃ np rev, d.net_profit = some np ∧ d.revenue = some rev ∧ rev ≠ 0 ∧
          (FinReports.calculate_derived_indicators d).net_margin = some (np / rev * 100)) ∧
      ((d.revenue = none ∨ d.total_assets = none ∨ d.total_assets = some 0) →
        (FinReports.calculate_derived_indicators d).asset_turnover = d.asset_turnover) ∧
      ((FinReports.calculate_derived_indicators d).asset_turnover ≠ d.asset_turnover →
        ∃ rev ta, d.revenue = some rev ∧ d.total_assets = some ta ∧ ta ≠ 0 ∧
          (FinReports.calculate_derived_indicators d).asset_turnover = some (rev / ta)) ∧
      ((d.total_assets = none ∨ d.total_equity = none ∨ d.total_equity = some 0) →
        (FinReports.calculate_derived_indicators d).equity_multiplier = d.equity_multiplier) ∧
      ((FinReports.calculate_derived_indicators d).equity_multiplier ≠ d.equity_multiplier →
        ∃ ta te, d.total_assets = some ta ∧ d.total_equity = some te ∧ te ≠ 0 ∧
          (FinReports.calculate_derived_indicators d).equity_multiplier = some (ta / te)) ∧
      ((d.total_liabilities = none ∨ d.total_assets = none ∨ d.total_assets = some 0) →
        (FinReports.calculate_derived_indicators d).asset_liability_ratio = d.asset_liability_ratio) ∧
      ((FinReports.calculate_derived_indicators d).asset_liability_ratio ≠ d.asset_liability_ratio →
        ∃ tl ta, d.total_liabilities = some tl ∧ d.total_assets = some ta ∧ ta ≠ 0 ∧
          (FinReports.calculate_derived_indicators d).asset_liability_ratio = some (tl / ta * 100)) ∧
      ((d.current_assets = none ∨ d.current_liabilities = none ∨ d.current_liabilities = some 0) →
        (FinReports.calculate_derived_indicators d).current_ratio = d.current_ratio) ∧
      ((FinReports.calculate_derived_indicators d).current_ratio ≠ d.current_ratio →
        ∃ ca cl, d.current_assets = some ca ∧ d.current_liabilities = some cl ∧ cl ≠ 0 ∧
          (FinReports.calculate_derived_indicators d).current_ratio = some (ca / cl)) ∧
      ((d.current_assets = none ∨ d.inventory = none ∨ d.current_liabilities = none ∨
          d.current_liabilities = some 0) →
        (FinReports.calculate_derived_indicators d).quick_ratio = d.quick_ratio) ∧
      ((FinReports.calculate_derived_indicators d).quick_ratio ≠ d.quick_ratio →
        ∃ ca inv cl, d.current_assets = some ca ∧ d.inventory = some inv ∧
          d.current_liabilities = some cl ∧ cl ≠ 0 ∧
          (FinReports.calculate_derived_indicators d).quick_ratio = some ((ca - inv) / cl))) ∧
    (∀ (d : ExtractHkV2.HkV2Data) (gross : Option ℚ),
      ((gross = none ∨ d.revenue = none ∨ d.revenue = some 0) →
        (ExtractHkV2.derive_ratios d gross).gross_margin = d.gross_margin) ∧
      ((ExtractHkV2.derive_ratios d gross).gross_margin ≠ d.gross_margin →
        ∃ g rev, gross = some g ∧ d.revenue = some rev ∧ rev ≠ 0 ∧
          (ExtractHkV2.derive_ratios d gross).gross_margin = some (pyRound2 (g / rev * 100))) ∧
      ((d.net_profit = none ∨ d.revenue = none ∨ d.revenue = some 0) →
        (ExtractHkV2.derive_ratios d gross).net_margin = d.net_margin) ∧
      ((ExtractHkV2.derive_ratios d gross).net_margin ≠ d.net_margin →
        ∃ np rev, d.net_profit = some np ∧ d.revenue = some rev ∧ rev ≠ 0 ∧
          (ExtractHkV2.derive_ratios d gross).net_margin = some (pyRound2 (np / rev * 100))) ∧
      ((d.net_profit = none ∨ d.total_equity = none ∨ d.total_equity = some 0) →
        (ExtractHkV2.derive_ratios d gross).roe = d.roe) ∧
      ((ExtractHkV2.derive_ratios d gross).roe ≠ d.roe →
        ∃ np te, d.net_profit = some np ∧ d.total_equity = some te ∧ te ≠ 0 ∧
          (ExtractHkV2.derive_ratios d gross).roe = some (pyRound2 (np / te * 100)))) := by
  constructor
  · intro d
    refine ⟨?_, ?_, ?_, ?_, ?_, ?_, ?_, ?_, ?_, ?_, ?_, ?_, ?_, ?_⟩
    · intro h
      rw [calc_roe]
      refine if_neg ?_
      rintro ⟨h0, h1, h2⟩
      rcases h with h | h | h
      · rw [h] at h1; exact not_truthy_none h1
      · rw [h] at h2; exact not_truthy_none h2
      · rw [h] at h2; exact not_truthy_some_zero h2
    · intro h
      rw [calc_roe] at h
      obtain ⟨⟨h0, h1, h2⟩, _⟩ := ite_changed h
      obtain ⟨np, hnp, _⟩ := (truthy_iff _).mp h1
      obtain ⟨te, hte, hte0⟩ := (truthy_iff _).mp h2
      refine ⟨np, te, hnp, hte, hte0, ?_⟩
      rw [calc_roe, if_pos ⟨h0, h1, h2⟩, hnp, hte]; rfl
    · intro h
      rw [calc_net_margin]
      refine if_neg ?_
      rintro ⟨h0, h1, h2⟩
      rcases h with h | h | h
      · rw [h] at h1; exact not_truthy_none h1
      · rw [h] at h2; exact not_truthy_none h2
      · rw [h] at h2; exact not_truthy_some_zero h2
    · intro h
      rw [calc_net_margin] at h
      obtain ⟨⟨h0, h1, h2⟩, _⟩ := ite_changed h
      obtain ⟨np, hnp, _⟩ := (truthy_iff _).mp h1
      obtain ⟨rev, hrev, hrev0⟩ := (truthy_iff _).mp h2
      refine ⟨np, rev, hnp, hrev, hrev0, ?_⟩
      rw [calc_net_margin, if_pos ⟨h0, h1, h2⟩, hnp, hrev]; rfl
    · intro h
      rw [calc_asset_turnover]
      refine if_neg ?_
      rintro ⟨h1, h2⟩
      rcases h with h | h | h
      · rw [h] at h1; exact not_truthy_none h1
      · rw [h] at h2; exact not_truthy_none h2
      · rw [h] at h2; exact not_truthy_some_zero h2
    · intro h
      rw [calc_asset_turnover] at h
      obtain ⟨⟨h1, h2⟩, _⟩ := ite_changed h
      obtain ⟨rev, hrev, _⟩ := (truthy_iff _).mp h1
      obtain ⟨ta, hta, hta0⟩ := (truthy_iff _).mp h2
      refine ⟨rev, ta, hrev, hta, hta0, ?_⟩
      rw [calc_asset_turnover, if_pos ⟨h1, h2⟩, hrev, hta]; rfl
    · intro h
      rw [calc_equity_multiplier]
      refine if_neg ?_
      rintro ⟨h1, h2⟩
      rcases h with h | h | h
      · rw [h] at h1; exact not_truthy_none h1
      · rw [h] at h2; exact not_truthy_none h2
      · rw [h] at h2; exact not_truthy_some_zero h2
    · intro h
      rw [calc_equity_multiplier] at h
      obtain ⟨⟨h1, h2⟩, _⟩ := ite_changed h
      obtain ⟨ta, hta, _⟩ := (truthy_iff _).mp h1
      obtain ⟨te, hte, hte0⟩ := (truthy_iff _).mp h2
      refine ⟨ta, te, hta, hte, hte0, ?_⟩
      rw [calc_equity_multiplier, if_pos ⟨h1, h2⟩, hta, hte]; rfl
    · intro h
      rw [calc_asset_liability_ratio]
      refine if_neg ?_
      rintro ⟨h1, h2⟩
      rcases h with h | h | h
      · rw [h] at h1; exact not_truthy_none h1
      · rw [h] at h2; exact not_truthy_none h2
      · rw [h] at h2; exact not_truthy_some_zero h2
    · intro h
      rw [calc_asset_liability_ratio] at h
      obtain ⟨⟨h1, h2⟩, _⟩ := ite_changed h
      obtain ⟨tl, htl, _⟩ := (truthy_iff _).mp h1
      obtain ⟨ta, hta, hta0⟩ := (truthy_iff _).mp h2
      refine ⟨tl, ta, htl, hta, hta0, ?_⟩
      rw [calc_asset_liability_ratio, if_pos ⟨h1, h2⟩, htl, hta]; rfl
    · intro h
      rw [calc_current_ratio]
      refine if_neg ?_
      rintro ⟨h1, h2⟩
      rcases h with h | h | h
      · rw [h] at h1; exact not_truthy_none h1
      · rw [h] at h2; exact not_truthy_none h2
      · rw [h] at h2; exact not_truthy_some_zero h2
    · intro h
      rw [calc_current_ratio] at h
      obtain ⟨⟨h1, h2⟩, _⟩ := ite_changed h
      obtain ⟨ca, hca, _⟩ := (truthy_iff _).mp h1
      obtain ⟨cl, hcl, hcl0⟩ := (truthy_iff _).mp h2
      refine ⟨ca, cl, hca, hcl, hcl0, ?_⟩
      rw [calc_current_ratio, if_pos ⟨h1, h2⟩, hca, hcl]; rfl
    · intro h
      rw [calc_quick_ratio]
      refine if_neg ?_
      rintro ⟨h1, h2, h3⟩
      rcases h with h | h | h | h
      · rw [h] at h1; exact not_truthy_none h1
      · rw [h] at h2; exact not_truthy_none h2
      · rw [h] at h3; exact not_truthy_none h3
      · rw [h] at h3; exact not_truthy_some_zero h3
    · intro h
      rw [calc_quick_ratio] at h
      obtain ⟨⟨h1, h2, h3⟩, _⟩ := ite_changed h
      obtain ⟨ca, hca, _⟩ := (truthy_iff _).mp h1
      obtain ⟨inv, hinv, _⟩ := (truthy_iff _).mp h2
      obtain ⟨cl, hcl, hcl0⟩ := (truthy_iff _).mp h3
      refine ⟨ca, inv, cl, hca, hinv, hcl, hcl0, ?_⟩
      rw [calc_quick_ratio, if_pos ⟨h1, h2, h3⟩, hca, hinv, hcl]; rfl
  · intro d gross
    refine ⟨?_, ?_, ?_, ?_, ?_, ?_⟩
    · intro h
      rw [hk_gross_margin]
      refine if_neg ?_
      rintro ⟨h1, h2⟩
      rcases h with h | h | h
      · rw [h] at h2; exact not_truthy_none h2
      · rw [h] at h1; exact not_truthy_none h1
      · rw [h] at h1; exact not_truthy_some_zero h1
    · intro h
      rw [hk_gross_margin] at h
      obtain ⟨⟨h1, h2⟩, _⟩ := ite_changed h
      obtain ⟨rev, hrev, hrev0⟩ := (truthy_iff _).mp h1
      obtain ⟨g, hg, _⟩ := (truthy_iff _).mp h2
      refine ⟨g, rev, hg, hrev, hrev0, ?_⟩
      rw [hk_gross_margin, if_pos ⟨h1, h2⟩, hrev, hg]; rfl
    · intro h
      rw [hk_net_margin]
      refine if_neg ?_
      rintro ⟨h1, h2⟩
      rcases h with h | h | h
      · rw [h] at h2; exact not_truthy_none h2
      · rw [h] at h1; exact not_truthy_none h1
      · rw [h] at h1; exact not_truthy_some_zero h1
    · intro h
      rw [hk_net_margin] at h
      obtain ⟨⟨h1, h2⟩, _⟩ := ite_changed h
      obtain ⟨rev, hrev, hrev0⟩ := (truthy_iff _).mp h1
      obtain ⟨np, hnp, _⟩ := (truthy_iff _).mp h2
      refine ⟨np, rev, hnp, hrev, hrev0, ?_⟩
      rw [hk_net_margin, if_pos ⟨h1, h2⟩, hrev, hnp]; rfl
    · intro h
      rw [hk_roe]
      refine if_neg ?_
      rintro ⟨h1, h2⟩
      rcases h with h | h | h
      · rw [h] at h2; exact not_truthy_none h2
      · rw [h] at h1; exact not_truthy_none h1
      · rw [h] at h1; exact not_truthy_some_zero h1
    · intro h
      rw [hk_roe] at h
      obtain ⟨⟨h1, h2⟩, _⟩ := ite_changed h
      obtain ⟨te, hte, hte0⟩ := (truthy_iff _).mp h1
      obtain ⟨np, hnp, _⟩ := (truthy_iff _).mp h2
      refine ⟨np, te, hnp, hte, hte0, ?_⟩
      rw [hk_roe, if_pos ⟨h1, h2⟩, hte, hnp]; rfl

/-- C3, witness: with `total_equity = 0` no ROE is added, and with
`net_profit = 10`, `total_equity = 50` the added ROE equals the formula. -/
theorem claim_C3_witness :
    ((FinReports.calculate_derived_indicators
        { total_equity := some 0, net_profit := some 5 }).roe =
      FinReports.FinData.roe { total_equity := some 0, net_profit := some 5 }) ∧
    ∃ np te,
      FinReports.FinData.net_profit
          { net_profit := some 10, total_equity := some 50 } = some np ∧
      FinReports.FinData.total_equity
          { net_profit := some 10, total_equity := some 50 } = some te ∧
      te ≠ 0 ∧
      (FinReports.calculate_derived_indicators
          { net_profit := some 10, total_equity := some 50 }).roe = some (np / te * 100) :=
  ⟨(claim_C3.1 _).1 (Or.inr (Or.inr rfl)), (claim_C3.1 _).2.1 (by decide)⟩

/-!
## Claim C10 — truthiness guards also suppress on zero numerators
-/

/-- C10: because every guard of `calculate_derived_indicators` is a Python
truthiness test, a field is also suppressed when a non-denominator operand
is exactly 0: `inventory = 0` (with positive current assets/liabilities)
yields no quick ratio, and `net_profit = 0` yields no ROE and no net
margin. -/
theorem claim_C10 :
    (∀ (d : FinReports.FinData) (ca cl : ℚ),
      d.inventory = some 0 → d.current_assets = some ca →
      d.current_liabilities = some cl → 0 < ca → 0 < cl →
      (FinReports.calculate_derived_indicators d).quick_ratio = d.quick_ratio) ∧
    (∀ d : FinReports.FinData, d.net_profit = some 0 →
      (FinReports.calculate_derived_indicators d).roe = d.roe ∧
      (FinReports.calculate_derived_indicators d).net_margin = d.net_margin) := by
  constructor
  · intro d ca cl hinv hca hcl hca0 hcl0
    rw [calc_quick_ratio]
    refine if_neg ?_
    rintro ⟨h1, h2, h3⟩
    rw [hinv] at h2
    exact not_truthy_some_zero h2
  · intro d hnp
    constructor
    · rw [calc_roe]
      refine if_neg ?_
      rintro ⟨h0, h1, h2⟩
      rw [hnp] at h1
      exact not_truthy_some_zero h1
    · rw [calc_net_margin]
      refine if_neg ?_
      rintro ⟨h0, h1, h2⟩
      rw [hnp] at h1
      exact not_truthy_some_zero h1

/-- C10, witness: the two suppression scenarios at a concrete record. -/
theorem claim_C10_witness :
    ((FinReports.calculate_derived_indicators
        { inventory := some 0, current_assets := some 100,
          current_liabilities := some 50, net_profit := some 0 }).quick_ratio =
      FinReports.FinData.quick_ratio
        { inventory := some 0, current_assets := some 100,
          current_liabilities := some 50, net_profit := some 0 }) ∧
    ((FinReports.calculate_derived_indicators
        { inventory := some 0, current_assets := some 100,
          current_liabilities := some 50, net_profit := some 0 }).roe =
      FinReports.FinData.roe
        { inventory := some 0, current_assets := some 100,
          current_liabilities := some 50, net_profit := some 0 }) ∧
    ((FinReports.calculate_derived_indicators
        { inventory := some 0, current_assets := some 100,
          current_liabilities := some 50, net_profit := some 0 }).net_margin =
      FinReports.FinData.net_margin
        { inventory := some 0, current_assets := some 100,
          current_liabilities := some 50, net_profit := some 0 }) :=
  ⟨claim_C10.1 _ 100 50 rfl rfl rfl (by norm_num) (by norm_num),
   (claim_C10.2 _ rfl).1, (claim_C10.2 _ rfl).2⟩

/-!
## Claim C6 — idempotent downloads
-/

theorem copy_reports_mem (sc : String → Bool) :
    ∀ (srcs dst : List String),
      dst ⊆ (FetchReports.copy_reports sc srcs dst).1 ∧
      ∀ f ∈ srcs, sc f = true → f ∈ (FetchReports.copy_reports sc srcs dst).1 := by
  intro srcs
  induction srcs with
  | nil => exact fun dst => ⟨List.Subset.refl dst, by simp⟩
  | cons f rest ih =>
    intro dst
    unfold FetchReports.copy_reports
    by_cases hc : sc f ∧ f ∉ dst
    · rw [if_pos hc]
      refine ⟨fun x hx => (ih (dst ++ [f])).1 (by simp [hx]), ?_⟩
      intro g hg hscg
      rcases List.mem_cons.mp hg with hgf | hg
      · subst hgf
        exact (ih (dst ++ [g])).1 (by simp)
      · exact (ih (dst ++ [f])).2 g hg hscg
    · rw [if_neg hc]
      refine ⟨(ih dst).1, ?_⟩
      intro g hg hscg
      rcases List.mem_cons.mp hg with hgf | hg
      · subst hgf
        have hgd : g ∈ dst := by
          by_contra hgd
          exact hc ⟨hscg, hgd⟩
        exact (ih dst).1 hgd
      · exact (ih dst).2 g hg hscg

theorem copy_reports_already (sc : String → Bool) :
    ∀ (srcs dst : List String),
      (∀ f ∈ srcs, sc f = true → f ∈ dst) →
      FetchReports.copy_reports sc srcs dst = (dst, []) := by
  intro srcs
  induction srcs with
  | nil => intro dst _; rfl
  | cons f rest ih =>
    intro dst h
    unfold FetchReports.copy_reports
    rw [if_neg ?_]
    · exact ih dst (fun g hg => h g (List.mem_cons_of_mem f hg))
    · rintro ⟨hsc, hnot⟩
      exact hnot (h f (List.mem_cons_self f rest) hsc)

theorem copy_reports_nodup (sc : String → Bool) :
    ∀ (srcs dst : List String), dst.Nodup →
      (FetchReports.copy_reports sc srcs dst).1.Nodup := by
  intro srcs
  induction srcs with
  | nil => exact fun dst h => h
  | cons f rest ih =>
    intro dst h
    unfold FetchReports.copy_reports
    by_cases hc : sc f ∧ f ∉ dst
    · rw [if_pos hc]
      exact ih (dst ++ [f]) (by simp [List.nodup_append, h, hc.2])
    · rw [if_neg hc]
      exact ih dst h

/-- C6: with at least 3 PDFs already in the stock's data directory,
`download_hk_reports` returns `True` without entering the network branch
and leaves the directory contents unchanged; and the per-file copy of
`download_reports_by_type` skips any file whose destination name already
exists, so re-running it on its own output copies nothing and never
introduces a duplicate filename. -/
theorem claim_C6 :
    (∀ (all_pdfs annual_pdfs : List String)
        (network_run : List String → Bool × List String),
      3 ≤ all_pdfs.length →
      BatchHk.download_hk_reports all_pdfs annual_pdfs network_run =
        ⟨true, false, all_pdfs⟩) ∧
    (∀ (should_copy : String → Bool) (srcs dst : List String),
      FetchReports.copy_reports should_copy srcs
          (FetchReports.copy_reports should_copy srcs dst).1 =
        ((FetchReports.copy_reports should_copy srcs dst).1, []) ∧
      (dst.Nodup → (FetchReports.copy_reports should_copy srcs dst).1.Nodup)) := by
  constructor
  · intro all_pdfs annual_pdfs network_run h
    unfold BatchHk.download_hk_reports
    rw [if_pos h]
  · intro sc srcs dst
    refine ⟨?_, copy_reports_nodup sc srcs dst⟩
    exact copy_reports_already sc srcs _
      (fun f hf hsc => (copy_reports_mem sc srcs dst).2 f hf hsc)

/-- C6, witness: a directory with three PDFs is skipped unchanged, and a
concrete second copy run is a no-op. -/
theorem claim_C6_witness :
    (3 ≤ (["a.pdf", "b.pdf", "c.pdf"] : List String).length ∧
      BatchHk.download_hk_reports ["a.pdf", "b.pdf", "c.pdf"] []
        (fun s => (false, s)) = ⟨true, false, ["a.pdf", "b.pdf", "c.pdf"]⟩) ∧
    ((["x.pdf"] : List String).Nodup ∧
      (FetchReports.copy_reports (fun _ => true) ["y.pdf"]
        (FetchReports.copy_reports (fun _ => true) ["y.pdf"] ["x.pdf"]).1 =
          ((FetchReports.copy_reports (fun _ => true) ["y.pdf"] ["x.pdf"]).1, []) ∧
        (FetchReports.copy_reports (fun _ => true) ["y.pdf"] ["x.pdf"]).1.Nodup)) :=
  ⟨⟨by decide, claim_C6.1 ["a.pdf", "b.pdf", "c.pdf"] [] (fun s => (false, s)) (by decide)⟩,
   ⟨by decide,
    (claim_C6.2 (fun _ => true) ["y.pdf"] ["x.pdf"]).1,
    (claim_C6.2 (fun _ => true) ["y.pdf"] ["x.pdf"]).2 (by decide)⟩⟩

/-!
## Claim C9 — bounded page reading
-/

/-- C9: the indicator scan of `parse_pdf_with_source` depends only on the
first 150 pages — in particular a field whose extractor succeeds on no page
among the first `min(150, total_pages)` is absent from the result — and
`extract_pdf_text` of `extract_hk_financials.py` depends only on the first
15 pages (its default `max_pages`). -/
theorem claim_C9 :
    (∀ (extract : String → Option ℚ) (pages : List (Option String)),
      FinReports.find_field extract pages =
        FinReports.find_field extract (pages.take 150)) ∧
    (∀ (extract : String → Option ℚ) (pages : List (Option String)),
      (∀ t : String, some t ∈ pages.take (FinReports.pages_to_read pages.length) →
        extract t = none) →
      FinReports.find_field extract pages = none) ∧
    (∀ pages pages' : List (Option String), pages.take 15 = pages'.take 15 →
      ExtractHkFin.extract_pdf_text pages = ExtractHkFin.extract_pdf_text pages') := by
  have hpt : ∀ pages : List (Option String),
      FinReports.page_texts pages = FinReports.page_texts (pages.take 150) := by
    intro pages
    unfold FinReports.page_texts FinReports.pages_to_read
    rw [List.take_take]
    have heq : 150 ⊓ pages.length = 150 ⊓ (List.take 150 pages).length ⊓ 150 := by
      rw [List.length_take]
      omega
    rw [heq]
  refine ⟨?_, ?_, ?_⟩
  · intro extract pages
    unfold FinReports.find_field
    rw [hpt pages]
  · intro extract pages h
    unfold FinReports.find_field
    rw [List.findSome?_eq_none_iff]
    intro t ht
    refine h t ?_
    unfold FinReports.page_texts at ht
    have h1 := List.of_mem_filter ht
    have h2 := List.mem_of_mem_filter ht
    rcases List.mem_filterMap.mp h2 with ⟨a, ha, hat⟩
    simp only [id] at hat
    subst hat
    exact ha
  · intro pages pages' h
    unfold ExtractHkFin.extract_pdf_text
    rw [h]

/-- C9, witness: an extractor that never matches yields no indicator on a
one-page document, and two page lists agreeing on their first 15 pages give
the same extracted text. -/
theorem claim_C9_witness :
    ((∀ t : String,
        some t ∈ (([some "page one"] : List (Option String)).take
          (FinReports.pages_to_read ([some "page one"] : List (Option String)).length)) →
        (fun _ : String => (none : Option ℚ)) t = none) ∧
      FinReports.find_field (fun _ => none) [some "page one"] = none) ∧
    (([some "a", none] : List (Option String)).take 15 =
        ([some "a", none] : List (Option String)).take 15 ∧
      ExtractHkFin.extract_pdf_text [some "a", none] =
        ExtractHkFin.extract_pdf_text [some "a", none]) :=
  ⟨⟨fun t _ => rfl, claim_C9.2.1 (fun _ => none) [some "page one"] (fun t _ => rfl)⟩,
   ⟨rfl, claim_C9.2.2 [some "a", none] [some "a", none] rfl⟩⟩

/-!
## Claim C4 — unit-scale detection
-/

/-- C4, counterexample: a text containing the hundred-million word 亿 but
also the thousand word 千元 is scaled by 1000, not 1e8, because the `elif`
chain of `extract_financials` tests 千元 first. -/
theorem claim_C4_counterexample :
    hasSub "亿" "千元亿" = true ∧
    ExtractHkV2.detect_unit "千元亿" = 1000 ∧
    ExtractHkV2.detect_unit "千元亿" ≠ 100000000 := by
  refine ⟨by decide, by decide, by decide⟩

/-- C4, amended: in `extract_hk_v2.py` the unit keywords are tested in
priority order 千元 (1000), then 百萬/百万 (1e6), then 億/亿 (1e8), the
first hit winning, and absence of all keywords keeps the default 1e6;
`save_to_db` multiplies each truthy base value by the detected unit.  The
`extract_from_text` path of `fetch_financial_from_reports.py` applies no
text-derived unit scale at all: it always calls `parse_number` with no
unit argument. -/
theorem claim_C4 :
    (∀ text : String, hasSub "千元" text = true →
      ExtractHkV2.detect_unit text = 1000) ∧
    (∀ text : String, (hasSub "百萬" text = true ∨ hasSub "百万" text = true) →
      hasSub "千元" text = false →
      ExtractHkV2.detect_unit text = 1000000) ∧
    (∀ text : String, (hasSub "億" text = true ∨ hasSub "亿" text = true) →
      hasSub "千元" text = false → hasSub "百萬" text = false →
      hasSub "百万" text = false →
      ExtractHkV2.detect_unit text = 100000000) ∧
    (∀ text : String, hasSub "千元" text = false → hasSub "百萬" text = false →
      hasSub "百万" text = false → hasSub "億" text = false →
      hasSub "亿" text = false →
      ExtractHkV2.detect_unit text = 1000000) ∧
    (∀ (d : ExtractHkV2.HkV2Data) (v : ℚ), v ≠ 0 →
      (d.revenue = some v →
        (ExtractHkV2.save_to_db_values d).revenue = some (v * d.unit)) ∧
      (d.net_profit = some v →
        (ExtractHkV2.save_to_db_values d).net_profit = some (v * d.unit)) ∧
      (d.total_assets = some v →
        (ExtractHkV2.save_to_db_values d).total_assets = some (v * d.unit)) ∧
      (d.total_equity = some v →
        (ExtractHkV2.save_to_db_values d).total_equity = some (v * d.unit))) ∧
    (∀ (findall : String → List String) (patterns : List String) (v : ℚ),
      FinReports.extract_from_text findall patterns = some v →
      ∃ s : String, FinReports.parse_number s none = some v) := by
  refine ⟨?_, ?_, ?_, ?_, ?_, ?_⟩
  · intro text h
    simp [ExtractHkV2.detect_unit, h]
  · intro text h h1
    rcases h with h | h <;> simp [ExtractHkV2.detect_unit, h, h1]
  · intro text h h1 h2 h3
    rcases h with h | h <;> simp [ExtractHkV2.detect_unit, h, h1, h2, h3]
  · intro text h1 h2 h3 h4 h5
    simp [ExtractHkV2.detect_unit, h1, h2, h3, h4, h5]
  · intro d v hv0
    refine ⟨?_, ?_, ?_, ?_⟩ <;> intro hv <;>
      simp [ExtractHkV2.save_to_db_values, hv, truthy, hv0]
  · intro findall patterns
    induction patterns with
    | nil =>
      intro v h
      exact absurd h (by simp [FinReports.extract_from_text])
    | cons p rest ih =>
      intro v h
      unfold FinReports.extract_from_text at h
      cases hf : findall p with
      | nil => rw [hf] at h; exact ih v h
      | cons m ms => rw [hf] at h; exact ⟨m, h⟩

/-- C4, witness: the keyword branches, the multiplication of `save_to_db`
and the unscaled fetch path at concrete inputs. -/
theorem claim_C4_witness :
    (ExtractHkV2.detect_unit "千元" = 1000 ∧
      ExtractHkV2.detect_unit "以百万元列示" = 1000000 ∧
      ExtractHkV2.detect_unit "亿元" = 100000000 ∧
      ExtractHkV2.detect_unit "no unit here" = 1000000) ∧
    (ExtractHkV2.save_to_db_values
        { revenue := some 2, unit := 1000000 }).revenue = some (2 * 1000000) ∧
    (∃ s : String, FinReports.parse_number s none = some 7) :=
  ⟨⟨claim_C4.1 "千元" (by decide),
    claim_C4.2.1 "以百万元列示" (Or.inr (by decide)) (by decide),
    claim_C4.2.2.1 "亿元" (Or.inr (by decide)) (by decide) (by decide) (by decide),
    claim_C4.2.2.2.1 "no unit here" (by decide) (by decide) (by decide) (by decide) (by decide)⟩,
   (claim_C4.2.2.2.2.1 { revenue := some 2, unit := 1000000 } 2 (by norm_num)).1 rfl,
   claim_C4.2.2.2.2.2 (fun _ => ["7"]) ["p"] 7 (by
    have h1 : FinReports.extract_from_text (fun _ => ["7"]) ["p"] =
        some ((1 : ℚ) * (digitsVal "7".data : ℚ)) := rfl
    have h2 : digitsVal "7".data = 7 := by decide
    rw [h1, h2]
    norm_num)⟩

/-!
## Rounding and loop lemmas for the sentiment analysis
-/

theorem le_roundHalfEven (q : ℚ) (n : ℤ) (h : (n : ℚ) ≤ q) :
    n ≤ roundHalfEven q := by
  unfold roundHalfEven
  dsimp only
  have hf : n ≤ ⌊q⌋ := Int.le_floor.mpr h
  split_ifs <;> omega

theorem roundHalfEven_le (q : ℚ) (n : ℤ) (h : q ≤ (n : ℚ)) :
    roundHalfEven q ≤ n := by
  unfold roundHalfEven
  have hf : ⌊q⌋ ≤ n := by
    have h1 := Int.floor_mono h
    rwa [Int.floor_intCast] at h1
  have hfl := Int.floor_le q
  dsimp only
  split_ifs with h1 h2 h3
  · exact hf
  · rcases lt_or_eq_of_le hf with h4 | h4
    · omega
    · exfalso
      rw [h4] at h2
      linarith
  · exact hf
  · rcases lt_or_eq_of_le hf with h4 | h4
    · omega
    · exfalso
      have h5 : q - (⌊q⌋ : ℚ) = 1 / 2 := le_antisymm (not_lt.mp h2) (not_lt.mp h1)
      rw [h4] at h5
      linarith

theorem pyRound2_bound (q : ℚ) (h1 : -1 ≤ q) (h2 : q ≤ 1) :
    -1 ≤ pyRound2 q ∧ pyRound2 q ≤ 1 := by
  unfold pyRound2
  have hl : (-100 : ℤ) ≤ roundHalfEven (q * 100) :=
    le_roundHalfEven _ _ (by push_cast; linarith)
  have hu : roundHalfEven (q * 100) ≤ (100 : ℤ) :=
    roundHalfEven_le _ _ (by push_cast; linarith)
  constructor
  · rw [le_div_iff (by norm_num : (0 : ℚ) < 100)]
    have hc : ((-100 : ℤ) : ℚ) ≤ (roundHalfEven (q * 100) : ℚ) := Int.cast_le.mpr hl
    push_cast at hc
    linarith
  · rw [div_le_one (by norm_num : (0 : ℚ) < 100)]
    have hc : ((roundHalfEven (q * 100) : ℤ) : ℚ) ≤ ((100 : ℤ) : ℚ) := Int.cast_le.mpr hu
    push_cast at hc
    linarith

theorem roundHalfEven_intCast (n : ℤ) : roundHalfEven (n : ℚ) = n := by
  unfold roundHalfEven
  rw [Int.floor_intCast]
  norm_num

theorem loop_step_pos (acc : Xueqiu.LoopAcc) (d : Xueqiu.Post) :
    (Xueqiu.loop_step acc d).pos =
      acc.pos + (if Xueqiu.isPositive d then 1 else 0) := by
  simp only [Xueqiu.loop_step, Xueqiu.isPositive,
    apply_ite Xueqiu.LoopAcc.pos, ite_self]
  split_ifs <;> simp_all <;> omega

theorem loop_step_neg (acc : Xueqiu.LoopAcc) (d : Xueqiu.Post) :
    (Xueqiu.loop_step acc d).neg =
      acc.neg + (if Xueqiu.isNegative d then 1 else 0) := by
  simp only [Xueqiu.loop_step, Xueqiu.isNegative,
    apply_ite Xueqiu.LoopAcc.neg, ite_self]
  split_ifs <;> simp_all <;> omega

theorem loop_step_neu (acc : Xueqiu.LoopAcc) (d : Xueqiu.Post) :
    (Xueqiu.loop_step acc d).neu =
      acc.neu + (if Xueqiu.isNeutral d then 1 else 0) := by
  simp only [Xueqiu.loop_step, Xueqiu.isNeutral,
    apply_ite Xueqiu.LoopAcc.neu, ite_self]
  split_ifs <;> simp_all <;> omega

theorem loop_step_bullish (acc : Xueqiu.LoopAcc) (d : Xueqiu.Post) :
    (Xueqiu.loop_step acc d).bullish =
      acc.bullish ++ (if Xueqiu.isPositive d then [Xueqiu.mkOpinion d] else []) := by
  simp only [Xueqiu.loop_step, Xueqiu.isPositive,
    apply_ite Xueqiu.LoopAcc.bullish, ite_self]
  split_ifs <;> simp_all

theorem loop_step_bearish (acc : Xueqiu.LoopAcc) (d : Xueqiu.Post) :
    (Xueqiu.loop_step acc d).bearish =
      acc.bearish ++ (if Xueqiu.isNegative d then [Xueqiu.mkOpinion d] else []) := by
  simp only [Xueqiu.loop_step, Xueqiu.isNegative,
    apply_ite Xueqiu.LoopAcc.bearish, ite_self]
  split_ifs <;> simp_all

theorem fold_pos (ds : List Xueqiu.Post) :
    ∀ acc : Xueqiu.LoopAcc,
      (ds.foldl Xueqiu.loop_step acc).pos = acc.pos + ds.countP Xueqiu.isPositive := by
  induction ds with
  | nil => simp
  | cons d rest ih =>
    intro acc
    rw [List.foldl_cons, ih, loop_step_pos, List.countP_cons]
    by_cases h : Xueqiu.isPositive d <;> simp [h] <;> omega

theorem fold_neg (ds : List Xueqiu.Post) :
    ∀ acc : Xueqiu.LoopAcc,
      (ds.foldl Xueqiu.loop_step acc).neg = acc.neg + ds.countP Xueqiu.isNegative := by
  induction ds with
  | nil => simp
  | cons d rest ih =>
    intro acc
    rw [List.foldl_cons, ih, loop_step_neg, List.countP_cons]
    by_cases h : Xueqiu.isNegative d <;> simp [h] <;> omega

theorem fold_neu (ds : List Xueqiu.Post) :
    ∀ acc : Xueqiu.LoopAcc,
      (ds.foldl Xueqiu.loop_step acc).neu = acc.neu + ds.countP Xueqiu.isNeutral := by
  induction ds with
  | nil => simp
  | cons d rest ih =>
    intro acc
    rw [List.foldl_cons, ih, loop_step_neu, List.countP_cons]
    by_cases h : Xueqiu.isNeutral d <;> simp [h] <;> omega

theorem fold_bullish (ds : List Xueqiu.Post) :
    ∀ acc : Xueqiu.LoopAcc,
      (ds.foldl Xueqiu.loop_step acc).bullish =
        acc.bullish ++ (ds.filter Xueqiu.isPositive).map Xueqiu.mkOpinion := by
  induction ds with
  | nil => simp
  | cons d rest ih =>
    intro acc
    rw [List.foldl_cons, ih, loop_step_bullish, List.filter_cons]
    by_cases h : Xueqiu.isPositive d <;> simp [h]

theorem fold_bearish (ds : List Xueqiu.Post) :
    ∀ acc : Xueqiu.LoopAcc,
      (ds.foldl Xueqiu.loop_step acc).bearish =
        acc.bearish ++ (ds.filter Xueqiu.isNegative).map Xueqiu.mkOpinion := by
  induction ds with
  | nil => simp
  | cons d rest ih =>
    intro acc
    rw [List.foldl_cons, ih, loop_step_bearish, List.filter_cons]
    by_cases h : Xueqiu.isNegative d <;> simp [h]

theorem counts_partition (ds : List Xueqiu.Post) :
    ds.countP Xueqiu.isPositive + ds.countP Xueqiu.isNegative +
      ds.countP Xueqiu.isNeutral = ds.length := by
  induction ds with
  | nil => simp
  | cons d rest ih =>
    simp only [List.countP_cons, List.length_cons]
    by_cases h1 : Xueqiu.isPositive d <;> by_cases h2 : Xueqiu.isNegative d
    · exfalso
      simp only [Xueqiu.isPositive, Xueqiu.isNegative, decide_eq_true_eq] at h1 h2
      rw [h1] at h2
      exact absurd h2 (by decide)
    · have h3 : Xueqiu.isNeutral d = false := by
        simp only [Xueqiu.isPositive, decide_eq_true_eq] at h1
        simp [Xueqiu.isNeutral, h1]
      simp [h1, h2, h3]
      omega
    · have h3 : Xueqiu.isNeutral d = false := by
        simp only [Xueqiu.isNegative, decide_eq_true_eq] at h2
        simp [Xueqiu.isNeutral, h2]
      simp [h1, h2, h3]
      omega
    · have h3 : Xueqiu.isNeutral d = true := by
        simp only [Xueqiu.isPositive, Xueqiu.isNegative, decide_eq_true_eq] at h1 h2
        simp [Xueqiu.isNeutral, h1, h2]
      simp [h1, h2, h3]
      omega

/-!
## Claim C5 — aggregate sentiment score
-/

/-- C5: `analyze_discussions` counts each post into exactly one sentiment
bucket according to `analyze_sentiment`, the three buckets partition the
posts, the aggregate score is `round((positive − negative) / total, 2)`
over the total number of posts, it always lies in [-1, 1], and the example
workload of 6 positive, 2 negative and 2 neutral posts scores exactly
0.4 = 2/5. -/
theorem claim_C5 :
    (∀ ds : List Xueqiu.Post,
      (Xueqiu.analyze_discussions ds).sentiment.positive = ds.countP Xueqiu.isPositive ∧
      (Xueqiu.analyze_discussions ds).sentiment.negative = ds.countP Xueqiu.isNegative ∧
      (Xueqiu.analyze_discussions ds).sentiment.neutral = ds.countP Xueqiu.isNeutral ∧
      (Xueqiu.analyze_discussions ds).sentiment.positive +
        (Xueqiu.analyze_discussions ds).sentiment.negative +
        (Xueqiu.analyze_discussions ds).sentiment.neutral = ds.length ∧
      (Xueqiu.analyze_discussions ds).sentiment.score =
        (if ds.length = 0 then 0 else
          pyRound2 (((ds.countP Xueqiu.isPositive : ℚ) - (ds.countP Xueqiu.isNegative : ℚ)) /
            (ds.length : ℚ))) ∧
      -1 ≤ (Xueqiu.analyze_discussions ds).sentiment.score ∧
      (Xueqiu.analyze_discussions ds).sentiment.score ≤ 1) ∧
    ((Xueqiu.analyze_discussions Xueqiu.exampleDiscussions).sentiment.positive = 6 ∧
     (Xueqiu.analyze_discussions Xueqiu.exampleDiscussions).sentiment.negative = 2 ∧
     (Xueqiu.analyze_discussions Xueqiu.exampleDiscussions).sentiment.neutral = 2 ∧
     (Xueqiu.analyze_discussions Xueqiu.exampleDiscussions).sentiment.score = 2 / 5) := by
  have main : ∀ ds : List Xueqiu.Post,
      (Xueqiu.analyze_discussions ds).sentiment.positive = ds.countP Xueqiu.isPositive ∧
      (Xueqiu.analyze_discussions ds).sentiment.negative = ds.countP Xueqiu.isNegative ∧
      (Xueqiu.analyze_discussions ds).sentiment.neutral = ds.countP Xueqiu.isNeutral ∧
      (Xueqiu.analyze_discussions ds).sentiment.positive +
        (Xueqiu.analyze_discussions ds).sentiment.negative +
        (Xueqiu.analyze_discussions ds).sentiment.neutral = ds.length ∧
      (Xueqiu.analyze_discussions ds).sentiment.score =
        (if ds.length = 0 then 0 else
          pyRound2 (((ds.countP Xueqiu.isPositive : ℚ) - (ds.countP Xueqiu.isNegative : ℚ)) /
            (ds.length : ℚ))) ∧
      -1 ≤ (Xueqiu.analyze_discussions ds).sentiment.score ∧
      (Xueqiu.analyze_discussions ds).sentiment.score ≤ 1 := by
    intro ds
    by_cases hds : ds = []
    · subst hds
      norm_num [Xueqiu.analyze_discussions]
    · have hpos := fold_pos ds ⟨0, 0, 0, [], [], []⟩
      have hneg := fold_neg ds ⟨0, 0, 0, [], [], []⟩
      have hneu := fold_neu ds ⟨0, 0, 0, [], [], []⟩
      simp only [Nat.zero_add] at hpos hneg hneu
      have hproj :
          (Xueqiu.analyze_discussions ds).sentiment.positive = ds.countP Xueqiu.isPositive ∧
          (Xueqiu.analyze_discussions ds).sentiment.negative = ds.countP Xueqiu.isNegative ∧
          (Xueqiu.analyze_discussions ds).sentiment.neutral = ds.countP Xueqiu.isNeutral := by
        unfold Xueqiu.analyze_discussions
        rw [if_neg hds]
        exact ⟨hpos, hneg, hneu⟩
      have hlen : 0 < ds.length := List.length_pos.mpr hds
      have hscore : (Xueqiu.analyze_discussions ds).sentiment.score =
          pyRound2 (((ds.countP Xueqiu.isPositive : ℚ) - (ds.countP Xueqiu.isNegative : ℚ)) /
            (ds.length : ℚ)) := by
        unfold Xueqiu.analyze_discussions
        rw [if_neg hds]
        dsimp only
        rw [hpos, hneg, hneu, counts_partition ds, if_pos hlen]
      have hp := List.countP_le_length (p := Xueqiu.isPositive) (l := ds)
      have hn := List.countP_le_length (p := Xueqiu.isNegative) (l := ds)
      have hx1 : -1 ≤ ((ds.countP Xueqiu.isPositive : ℚ) - (ds.countP Xueqiu.isNegative : ℚ)) /
          (ds.length : ℚ) := by
        rw [le_div_iff (by exact_mod_cast hlen)]
        have hnq : (ds.countP Xueqiu.isNegative : ℚ) ≤ (ds.length : ℚ) := by exact_mod_cast hn
        have hpq : (0 : ℚ) ≤ (ds.countP Xueqiu.isPositive : ℚ) := by positivity
        linarith
      have hx2 : ((ds.countP Xueqiu.isPositive : ℚ) - (ds.countP Xueqiu.isNegative : ℚ)) /
          (ds.length : ℚ) ≤ 1 := by
        rw [div_le_one (by exact_mod_cast hlen)]
        have hpq : (ds.countP Xueqiu.isPositive : ℚ) ≤ (ds.length : ℚ) := by exact_mod_cast hp
        have hnq : (0 : ℚ) ≤ (ds.countP Xueqiu.isNegative : ℚ) := by positivity
        linarith
      obtain ⟨hb1, hb2⟩ := pyRound2_bound _ hx1 hx2
      refine ⟨hproj.1, hproj.2.1, hproj.2.2, ?_, ?_, ?_, ?_⟩
      · rw [hproj.1, hproj.2.1, hproj.2.2]
        exact counts_partition ds
      · rw [hscore, if_neg (by omega)]
      · rw [hscore]; exact hb1
      · rw [hscore]; exact hb2
  refine ⟨main, ?_, ?_, ?_, ?_⟩
  · rw [(main Xueqiu.exampleDiscussions).1]; decide
  · rw [(main Xueqiu.exampleDiscussions).2.1]; decide
  · rw [(main Xueqiu.exampleDiscussions).2.2.1]; decide
  · rw [(main Xueqiu.exampleDiscussions).2.2.2.2.1]
    have hcp : Xueqiu.exampleDiscussions.countP Xueqiu.isPositive = 6 := by decide
    have hcn : Xueqiu.exampleDiscussions.countP Xueqiu.isNegative = 2 := by decide
    have hl : Xueqiu.exampleDiscussions.length = 10 := by decide
    rw [hcp, hcn, hl]
    norm_num
    unfold pyRound2
    have h40 : (2 : ℚ) / 5 * 100 = ((40 : ℤ) : ℚ) := by norm_num
    rw [h40, roundHalfEven_intCast]
    norm_num

/-!
## Claim C8 — bounded, sorted key-opinion lists
-/

/-- C8: each key-opinion list of `analyze_discussions` has at most 10
entries, is ordered by like count descending, and consists of top-liked
posts of its sentiment bucket: the bucket splits into the retained list
and a remainder whose members all have like counts no greater than any
retained entry. -/
theorem claim_C8 :
    ∀ ds : List Xueqiu.Post,
      ((Xueqiu.analyze_discussions ds).bullish.length ≤ 10 ∧
        (Xueqiu.analyze_discussions ds).bullish.Pairwise (fun x y => y.likes ≤ x.likes) ∧
        ∃ rest : List Xueqiu.Opinion,
          ((ds.filter Xueqiu.isPositive).map Xueqiu.mkOpinion).Perm
            ((Xueqiu.analyze_discussions ds).bullish ++ rest) ∧
          ∀ x ∈ (Xueqiu.analyze_discussions ds).bullish, ∀ y ∈ rest, y.likes ≤ x.likes) ∧
      ((Xueqiu.analyze_discussions ds).bearish.length ≤ 10 ∧
        (Xueqiu.analyze_discussions ds).bearish.Pairwise (fun x y => y.likes ≤ x.likes) ∧
        ∃ rest : List Xueqiu.Opinion,
          ((ds.filter Xueqiu.isNegative).map Xueqiu.mkOpinion).Perm
            ((Xueqiu.analyze_discussions ds).bearish ++ rest) ∧
          ∀ x ∈ (Xueqiu.analyze_discussions ds).bearish, ∀ y ∈ rest, y.likes ≤ x.likes) := by
  intro ds
  by_cases hds : ds = []
  · subst hds
    refine ⟨⟨?_, ?_, [], ?_, ?_⟩, ⟨?_, ?_, [], ?_, ?_⟩⟩ <;>
      simp [Xueqiu.analyze_discussions]
  · have hbull : (Xueqiu.analyze_discussions ds).bullish =
        (((ds.filter Xueqiu.isPositive).map Xueqiu.mkOpinion).insertionSort
          Xueqiu.opinionGe).take 10 := by
      unfold Xueqiu.analyze_discussions
      rw [if_neg hds]
      dsimp only
      rw [fold_bullish ds ⟨0, 0, 0, [], [], []⟩]
      simp
    have hbear : (Xueqiu.analyze_discussions ds).bearish =
        (((ds.filter Xueqiu.isNegative).map Xueqiu.mkOpinion).insertionSort
          Xueqiu.opinionGe).take 10 := by
      unfold Xueqiu.analyze_discussions
      rw [if_neg hds]
      dsimp only
      rw [fold_bearish ds ⟨0, 0, 0, [], [], []⟩]
      simp
    have general : ∀ L : List Xueqiu.Opinion,
        ((L.insertionSort Xueqiu.opinionGe).take 10).length ≤ 10 ∧
        ((L.insertionSort Xueqiu.opinionGe).take 10).Pairwise (fun x y => y.likes ≤ x.likes) ∧
        ∃ rest : List Xueqiu.Opinion,
          L.Perm ((L.insertionSort Xueqiu.opinionGe).take 10 ++ rest) ∧
          ∀ x ∈ (L.insertionSort Xueqiu.opinionGe).take 10, ∀ y ∈ rest, y.likes ≤ x.likes := by
      intro L
      have hsorted := List.sorted_insertionSort Xueqiu.opinionGe L
      have hperm := (List.perm_insertionSort Xueqiu.opinionGe L).symm
      have hsplit := List.take_append_drop 10 (L.insertionSort Xueqiu.opinionGe)
      refine ⟨?_, ?_, (L.insertionSort Xueqiu.opinionGe).drop 10, ?_, ?_⟩
      · rw [List.length_take]
        exact Nat.min_le_left _ _
      · exact List.Pairwise.sublist (List.take_sublist 10 _) hsorted
      · rw [hsplit]
        exact hperm
      · rw [← hsplit] at hsorted
        exact fun x hx y hy => (List.pairwise_append.mp hsorted).2.2 x hx y hy
    refine ⟨?_, ?_⟩
    · rw [hbull]
      exact general ((ds.filter Xueqiu.isPositive).map Xueqiu.mkOpinion)
    · rw [hbear]
      exact general ((ds.filter Xueqiu.isNegative).map Xueqiu.mkOpinion)

/-- C8, witness: the bound at the example workload. -/
theorem claim_C8_witness :
    (Xueqiu.analyze_discussions Xueqiu.exampleDiscussions).bullish.length ≤ 10 ∧
    (Xueqiu.analyze_discussions Xueqiu.exampleDiscussions).bearish.length ≤ 10 :=
  ⟨(claim_C8 Xueqiu.exampleDiscussions).1.1, (claim_C8 Xueqiu.exampleDiscussions).2.1⟩

/-!
## Character and list lemmas for the numeric-string grammar (claim C2)
-/

theorem isDigit_notSep {c : Char} (h : c.isDigit = true) : notSep c = true := by
  simp only [notSep, Bool.not_eq_true', Bool.or_eq_false_iff, beq_eq_false_iff_ne, ne_eq]
  refine ⟨⟨fun hc => ?_, fun hc => ?_⟩, fun hc => ?_⟩ <;>
    (subst hc; exact absurd h (by decide))

theorem isDigit_not_ws {c : Char} (h : c.isDigit = true) : c.isWhitespace = false := by
  simp only [Char.isWhitespace, Bool.or_eq_false_iff, decide_eq_false_iff_not]
  refine ⟨⟨⟨fun hc => ?_, fun hc => ?_⟩, fun hc => ?_⟩, fun hc => ?_⟩ <;>
    (subst hc; exact absurd h (by decide))

theorem isDigit_ne_dot {c : Char} (h : c.isDigit = true) : c ≠ '.' :=
  fun hc => by subst hc; exact absurd h (by decide)

theorem isDigit_ne_lparen {c : Char} (h : c.isDigit = true) : c ≠ '(' :=
  fun hc => by subst hc; exact absurd h (by decide)

theorem isDigit_ne_minus {c : Char} (h : c.isDigit = true) : c ≠ '-' :=
  fun hc => by subst hc; exact absurd h (by decide)

theorem isDigit_ne_plus {c : Char} (h : c.isDigit = true) : c ≠ '+' :=
  fun hc => by subst hc; exact absurd h (by decide)

theorem dropWhile_eq_self_of (p : Char → Bool) (l : List Char)
    (h : ∀ c ∈ l, p c = false) : l.dropWhile p = l := by
  cases l with
  | nil => rfl
  | cons c cs =>
    rw [List.dropWhile_cons, h c (List.mem_cons_self c cs)]
    simp

theorem pyStrip_eq_self {l : List Char} (h : ∀ c ∈ l, c.isWhitespace = false) :
    pyStrip l = l := by
  unfold pyStrip
  rw [dropWhile_eq_self_of _ _ h,
    dropWhile_eq_self_of _ _ (fun c hc => h c (List.mem_reverse.mp hc)),
    List.reverse_reverse]

theorem splitDot_no_dot {l : List Char} (h : ∀ c ∈ l, c ≠ '.') :
    splitDot l = (l, none) := by
  induction l with
  | nil => rfl
  | cons c cs ih =>
    unfold splitDot
    rw [if_neg (h c (List.mem_cons_self c cs))]
    rw [ih (fun x hx => h x (List.mem_cons_of_mem c hx))]

theorem splitDot_append (l f : List Char) (h : ∀ c ∈ l, c ≠ '.') :
    splitDot (l ++ '.' :: f) = (l, some f) := by
  induction l with
  | nil => simp [splitDot]
  | cons c cs ih =>
    rw [List.cons_append]
    unfold splitDot
    rw [if_neg (h c (List.mem_cons_self c cs))]
    rw [ih (fun x hx => h x (List.mem_cons_of_mem c hx))]

theorem stripSign_no_sign {l : List Char}
    (h : ∀ c, l.head? = some c → c ≠ '-' ∧ c ≠ '+') : stripSign l = (false, l) := by
  cases l with
  | nil => rfl
  | cons c cs =>
    obtain ⟨h1, h2⟩ := h c rfl
    simp only [stripSign]
    rw [if_neg h1, if_neg h2]

theorem filter_notSep_groupJoin {sep : Char} (hsep : notSep sep = false) :
    ∀ groups : List (List Char),
      (∀ g ∈ groups, ∀ c ∈ g, c.isDigit = true) →
      (NumGrammar.groupJoin sep groups).filter notSep = groups.flatten := by
  intro groups
  induction groups with
  | nil => intro _; rfl
  | cons g gs ih =>
    intro hg
    cases gs with
    | nil =>
      show (NumGrammar.groupJoin sep [g]).filter notSep = [g].flatten
      unfold NumGrammar.groupJoin
      rw [List.filter_eq_self.mpr
        (fun c hc => isDigit_notSep (hg g (List.mem_cons_self g []) c hc))]
      simp
    | cons g2 gs2 =>
      show (NumGrammar.groupJoin sep (g :: g2 :: gs2)).filter notSep = (g :: g2 :: gs2).flatten
      unfold NumGrammar.groupJoin
      rw [List.filter_append, List.filter_cons, hsep,
        List.filter_eq_self.mpr
          (fun c hc => isDigit_notSep (hg g (List.mem_cons_self g (g2 :: gs2)) c hc)),
        ih (fun g' hg' c hc => hg g' (List.mem_cons_of_mem g hg') c hc)]
      simp [NumGrammar.groupJoin]

theorem groupJoin_cons (sep : Char) (g : List Char) (gs : List (List Char)) :
    ∃ X : List Char, NumGrammar.groupJoin sep (g :: gs) = g ++ X := by
  cases gs with
  | nil => exact ⟨[], by simp [NumGrammar.groupJoin]⟩
  | cons g2 gs2 => exact ⟨sep :: NumGrammar.groupJoin sep (g2 :: gs2), rfl⟩

theorem numParse_eval (neg : Bool) (sep : Char) (groups : List (List Char))
    (frac : Option (List Char))
    (hsep : sep = ',' ∨ sep = '，')
    (hne : groups ≠ [])
    (hg : ∀ g ∈ groups, g ≠ [] ∧ ∀ c ∈ g, c.isDigit = true)
    (hf : ∀ f, frac = some f → ∀ c ∈ f, c.isDigit = true) :
    ExtractHkV2.parse_number (NumGrammar.mkNumStr neg sep groups frac) =
      some (NumGrammar.numVal neg groups frac) ∧
    ExtractHkFin.parse_number (NumGrammar.mkNumStr neg sep groups frac) =
      some (NumGrammar.numVal neg groups frac) := by
  have hgd : ∀ g ∈ groups, ∀ c ∈ g, c.isDigit = true := fun g hgm => (hg g hgm).2
  have hsepc : notSep sep = false := by
    rcases hsep with rfl | rfl <;> decide
  obtain ⟨g0, gs, rfl⟩ := List.exists_cons_of_ne_nil hne
  obtain ⟨c0, g0t, rfl⟩ :=
    List.exists_cons_of_ne_nil (hg _ (List.mem_cons_self _ _)).1
  have hc0 : c0.isDigit = true :=
    hgd _ (List.mem_cons_self _ _) c0 (List.mem_cons_self _ _)
  have hfld : ∀ c ∈ ((c0 :: g0t) :: gs).flatten, c.isDigit = true := by
    intro c hc
    rcases List.mem_flatten.mp hc with ⟨g, hgm, hcg⟩
    exact hgd g hgm c hcg
  have hdotd : ∀ c ∈ NumGrammar.dotPart frac, c = '.' ∨ c.isDigit = true := by
    cases frac with
    | none => intro c hc; simp [NumGrammar.dotPart] at hc
    | some f =>
      intro c hc
      rcases List.mem_cons.mp hc with rfl | hc
      · exact Or.inl rfl
      · exact Or.inr (hf f rfl c hc)
  have hcore_filter : (NumGrammar.numCore sep ((c0 :: g0t) :: gs) frac).filter notSep =
      ((c0 :: g0t) :: gs).flatten ++ NumGrammar.dotPart frac := by
    unfold NumGrammar.numCore
    rw [List.filter_append, filter_notSep_groupJoin hsepc _ hgd]
    congr 1
    cases frac with
    | none => rfl
    | some f =>
      show List.filter notSep ('.' :: f) = '.' :: f
      rw [List.filter_cons]
      have hdotsep : notSep '.' = true := by decide
      rw [hdotsep,
        List.filter_eq_self.mpr (fun c hc => isDigit_notSep (hf f rfl c hc))]
      simp
  have hws : ∀ c ∈ ((c0 :: g0t) :: gs).flatten ++ NumGrammar.dotPart frac,
      c.isWhitespace = false := by
    intro c hc
    rcases List.mem_append.mp hc with hc | hc
    · exact isDigit_not_ws (hfld c hc)
    · rcases hdotd c hc with rfl | hd
      · decide
      · exact isDigit_not_ws hd
  have hfl_head : ((c0 :: g0t) :: gs).flatten ++ NumGrammar.dotPart frac =
      c0 :: (g0t ++ gs.flatten ++ NumGrammar.dotPart frac) := by
    simp
  have hmain : ∀ b : Bool,
      pyFloat ((if b then ['-'] else []) ++
        (((c0 :: g0t) :: gs).flatten ++ NumGrammar.dotPart frac)) =
      some ((if b then -1 else 1) *
        ((digitsVal (((c0 :: g0t) :: gs).flatten) : ℚ) + NumGrammar.fracVal frac)) := by
    intro b
    unfold pyFloat
    have hws2 : ∀ c ∈ (if b then ['-'] else []) ++
        (((c0 :: g0t) :: gs).flatten ++ NumGrammar.dotPart frac),
        c.isWhitespace = false := by
      intro c hc
      rcases List.mem_append.mp hc with hc | hc
      · cases b with
        | true => simp at hc; subst hc; decide
        | false => simp at hc
      · exact hws c hc
    rw [pyStrip_eq_self hws2]
    dsimp only
    have hsign : stripSign ((if b then ['-'] else []) ++
        (((c0 :: g0t) :: gs).flatten ++ NumGrammar.dotPart frac)) =
        (b, ((c0 :: g0t) :: gs).flatten ++ NumGrammar.dotPart frac) := by
      cases b with
      | true => simp [stripSign]
      | false =>
        rw [show (if false then ['-'] else ([] : List Char)) = [] from rfl,
          List.nil_append]
        refine stripSign_no_sign ?_
        intro c hch
        rw [hfl_head] at hch
        simp only [List.head?_cons, Option.some.injEq] at hch
        subst hch
        exact ⟨isDigit_ne_minus hc0, isDigit_ne_plus hc0⟩
    rw [hsign]
    cases frac with
    | none =>
      rw [show NumGrammar.dotPart none = ([] : List Char) from rfl, List.append_nil]
      rw [splitDot_no_dot (fun c hc => isDigit_ne_dot (hfld c hc))]
      dsimp only
      have hcond : ((c0 :: g0t) :: gs).flatten ≠ [] ∧
          (((c0 :: g0t) :: gs).flatten).all Char.isDigit = true :=
        ⟨by simp, List.all_eq_true.mpr (fun c hc => hfld c hc)⟩
      rw [if_pos hcond]
      simp [NumGrammar.fracVal]
    | some f =>
      rw [show NumGrammar.dotPart (some f) = '.' :: f from rfl]
      rw [splitDot_append _ f (fun c hc => isDigit_ne_dot (hfld c hc))]
      dsimp only
      have hcond : (((c0 :: g0t) :: gs).flatten).all Char.isDigit = true ∧
          f.all Char.isDigit = true ∧
          (((c0 :: g0t) :: gs).flatten ≠ [] ∨ f ≠ []) :=
        ⟨List.all_eq_true.mpr (fun c hc => hfld c hc),
         List.all_eq_true.mpr (fun c hc => hf f rfl c hc),
         Or.inl (by simp)⟩
      rw [if_pos hcond]
      simp [NumGrammar.fracVal]
  -- the numeral core starts with the digit c0
  obtain ⟨X, hgj⟩ := groupJoin_cons sep (c0 :: g0t) gs
  have hcore_cons : NumGrammar.numCore sep ((c0 :: g0t) :: gs) frac =
      c0 :: (g0t ++ X ++ NumGrammar.dotPart frac) := by
    unfold NumGrammar.numCore
    rw [hgj]
    simp
  have hne_str : NumGrammar.mkNumStr neg sep ((c0 :: g0t) :: gs) frac ≠ "" := by
    intro h
    have h2 := congrArg String.data h
    unfold NumGrammar.mkNumStr at h2
    cases neg with
    | true => simp at h2
    | false =>
      rw [show (String.mk (if false then '(' :: NumGrammar.numCore sep ((c0 :: g0t) :: gs) frac ++ [')'] else NumGrammar.numCore sep ((c0 :: g0t) :: gs) frac)).data = NumGrammar.numCore sep ((c0 :: g0t) :: gs) frac from rfl, hcore_cons] at h2
      simp at h2
  have hfilter_neg : ('(' :: NumGrammar.numCore sep ((c0 :: g0t) :: gs) frac ++ [')']).filter notSep =
      '(' :: ((((c0 :: g0t) :: gs).flatten ++ NumGrammar.dotPart frac) ++ [')']) := by
    rw [List.filter_append, List.filter_cons, show notSep '(' = true from by decide]
    simp only [if_true]
    rw [hcore_filter, show List.filter notSep [')'] = [')'] from rfl]
    simp
  have hws_neg : ∀ c ∈ '(' :: ((((c0 :: g0t) :: gs).flatten ++ NumGrammar.dotPart frac) ++ [')']),
      c.isWhitespace = false := by
    intro c hc
    rcases List.mem_cons.mp hc with rfl | hc
    · decide
    · rcases List.mem_append.mp hc with hc | hc
      · exact hws c hc
      · simp at hc
        subst hc
        decide
  have hlast : ('(' :: ((((c0 :: g0t) :: gs).flatten ++ NumGrammar.dotPart frac) ++ [')'])).getLast? =
      some ')' := by
    rw [show '(' :: ((((c0 :: g0t) :: gs).flatten ++ NumGrammar.dotPart frac) ++ [')']) =
      ('(' :: (((c0 :: g0t) :: gs).flatten ++ NumGrammar.dotPart frac)) ++ [')'] from rfl]
    exact List.getLast?_concat _
  constructor
  · -- extract_hk_v2
    unfold ExtractHkV2.parse_number
    rw [if_neg hne_str]
    cases neg with
    | true =>
      rw [show NumGrammar.mkNumStr true sep ((c0 :: g0t) :: gs) frac =
        String.mk ('(' :: NumGrammar.numCore sep ((c0 :: g0t) :: gs) frac ++ [')']) from rfl]
      dsimp only
      rw [hfilter_neg, pyStrip_eq_self hws_neg]
      rw [if_pos ⟨rfl, hlast⟩]
      rw [show (('(' :: ((((c0 :: g0t) :: gs).flatten ++ NumGrammar.dotPart frac) ++ [')'])).drop 1).dropLast =
        ((c0 :: g0t) :: gs).flatten ++ NumGrammar.dotPart frac from by
          rw [List.drop_succ_cons, List.drop_zero, List.dropLast_concat]]
      exact hmain true
    | false =>
      rw [show NumGrammar.mkNumStr false sep ((c0 :: g0t) :: gs) frac =
        String.mk (NumGrammar.numCore sep ((c0 :: g0t) :: gs) frac) from rfl]
      dsimp only
      rw [hcore_filter, pyStrip_eq_self hws]
      rw [if_neg (fun hcontra => by
        rw [hfl_head] at hcontra
        obtain ⟨h1, _⟩ := hcontra
        simp only [List.head?_cons, Option.some.injEq] at h1
        exact isDigit_ne_lparen hc0 h1)]
      exact hmain false
  · -- extract_hk_financials
    unfold ExtractHkFin.parse_number
    rw [if_neg hne_str]
    cases neg with
    | true =>
      rw [show NumGrammar.mkNumStr true sep ((c0 :: g0t) :: gs) frac =
        String.mk ('(' :: NumGrammar.numCore sep ((c0 :: g0t) :: gs) frac ++ [')']) from rfl]
      dsimp only
      rw [hfilter_neg]
      rw [if_pos ⟨rfl, hlast⟩]
      rw [show (('(' :: ((((c0 :: g0t) :: gs).flatten ++ NumGrammar.dotPart frac) ++ [')'])).drop 1).dropLast =
        ((c0 :: g0t) :: gs).flatten ++ NumGrammar.dotPart frac from by
          rw [List.drop_succ_cons, List.drop_zero, List.dropLast_concat]]
      exact hmain true
    | false =>
      rw [show NumGrammar.mkNumStr false sep ((c0 :: g0t) :: gs) frac =
        String.mk (NumGrammar.numCore sep ((c0 :: g0t) :: gs) frac) from rfl]
      dsimp only
      rw [hcore_filter]
      rw [if_neg (fun hcontra => by
        rw [hfl_head] at hcontra
        obtain ⟨h1, _⟩ := hcontra
        simp only [List.head?_cons, Option.some.injEq] at h1
        exact isDigit_ne_lparen hc0 h1)]
      exact hmain false

/-!
## Claim C2 — numeric-string parsing
-/

/-- C2, counterexample: `FinancialReportParser.parse_number` does not
handle parenthesised negatives — `float("(1234.50)")` raises, which the
code turns into `None` — so it does not return the claimed -1234.5. -/
theorem claim_C2_counterexample :
    FinReports.parse_number "(1,234.50)" none = none ∧
    FinReports.parse_number "(1,234.50)" none ≠ some (-1234.5) := by
  refine ⟨rfl, ?_⟩
  rw [show FinReports.parse_number "(1,234.50)" none = none from rfl]
  simp

/-- C2, amended: the `parse_number` implementations of `extract_hk_v2.py`
and `extract_hk_financials.py` both parse every numeric string made of
digit groups joined by an ASCII or full-width comma, an optional decimal
part and an optional enclosing parenthesis pair to the correct signed
value — in particular `"(1,234.50)" ↦ -1234.5`.
`FinancialReportParser.parse_number` in `fetch_financial_from_reports.py`
removes the separators (`"1,234.50" ↦ 1234.5`) but has no
parenthesised-negative handling and returns `None` on such strings. -/
theorem claim_C2 :
    (∀ (neg : Bool) (sep : Char) (groups : List (List Char))
        (frac : Option (List Char)),
      (sep = ',' ∨ sep = '，') →
      groups ≠ [] →
      (∀ g ∈ groups, g ≠ [] ∧ ∀ c ∈ g, c.isDigit = true) →
      (∀ f, frac = some f → ∀ c ∈ f, c.isDigit = true) →
      ExtractHkV2.parse_number (NumGrammar.mkNumStr neg sep groups frac) =
        some (NumGrammar.numVal neg groups frac) ∧
      ExtractHkFin.parse_number (NumGrammar.mkNumStr neg sep groups frac) =
        some (NumGrammar.numVal neg groups frac)) ∧
    ExtractHkV2.parse_number "(1,234.50)" = some (-1234.5) ∧
    ExtractHkFin.parse_number "(1,234.50)" = some (-1234.5) ∧
    FinReports.parse_number "1,234.50" none = some 1234.5 ∧
    FinReports.parse_number "(1,234.50)" none = none := by
  have hd1 : digitsVal ['1', '2', '3', '4'] = 1234 := by decide
  have hd2 : digitsVal ['5', '0'] = 50 := by decide
  refine ⟨numParse_eval, ?_, ?_, ?_, rfl⟩
  · have h1 : ExtractHkV2.parse_number "(1,234.50)" =
        some ((-1 : ℚ) * ((digitsVal ['1', '2', '3', '4'] : ℚ) +
          (digitsVal ['5', '0'] : ℚ) / 10 ^ (['5', '0'] : List Char).length)) := rfl
    rw [h1, hd1, hd2]
    norm_num
  · have h1 : ExtractHkFin.parse_number "(1,234.50)" =
        some ((-1 : ℚ) * ((digitsVal ['1', '2', '3', '4'] : ℚ) +
          (digitsVal ['5', '0'] : ℚ) / 10 ^ (['5', '0'] : List Char).length)) := rfl
    rw [h1, hd1, hd2]
    norm_num
  · have h1 : FinReports.parse_number "1,234.50" none =
        some ((1 : ℚ) * ((digitsVal ['1', '2', '3', '4'] : ℚ) +
          (digitsVal ['5', '0'] : ℚ) / 10 ^ (['5', '0'] : List Char).length)) := rfl
    rw [h1, hd1, hd2]
    norm_num

/-- C2, witness: the grammar theorem applied to the rendering of
`(1,234.50)` itself. -/
theorem claim_C2_witness :
    ExtractHkV2.parse_number
        (NumGrammar.mkNumStr true ',' [['1'], ['2', '3', '4']] (some ['5', '0'])) =
      some (NumGrammar.numVal true [['1'], ['2', '3', '4']] (some ['5', '0'])) ∧
    ExtractHkFin.parse_number
        (NumGrammar.mkNumStr true ',' [['1'], ['2', '3', '4']] (some ['5', '0'])) =
      some (NumGrammar.numVal true [['1'], ['2', '3', '4']] (some ['5', '0'])) :=
  claim_C2.1 true ',' [['1'], ['2', '3', '4']] (some ['5', '0'])
    (Or.inl rfl) (by decide) (by decide)
    (fun f hf => by cases hf; decide)
